import Mathlib

/-!
# Verification of the tui-image-editor command/invoker core

Shallow embedding of the undo/redo command layer:

* `Graphics` models the collaborator (fabric canvas + the `_objects` registry
  of `graphics.js`), with the operations the commands use (`getObject`,
  `removeObjectById`, `removeAll`, `add`, `remove`).
* `Cmd`/`cmdExecute`/`cmdUndo` embed the command implementations found in the
  repository (`addObject` from the command factory, `removeObject`,
  `clearObjects`, `changeIconColor`, `loadImage`, flip, filter).
* `Invoker.*` embeds `invoker.js` (the modern generation: `execute`, `undo`,
  `redo`, the lock flag, the two stacks and the stack-changed events).

JS promises settle with a value or a rejection reason; a command action is
embedded as a function from the collaborator state to the new state plus a
`Result`.  JS `reject()` with no argument is `Result.error none`.
-/

namespace TuiImageEditor

/-! ## Rejection messages (consts.js `rejectMessages`) -/

def isLockMsg : String := "The executing command state is locked."

def undoRejectMsg : String := "The promise of undo command is reject."

def redoRejectMsg : String := "The promise of redo command is reject."

def noObjectMsg : String := "The object is not in canvas."

def flipRejectMsg : String := "The flipX and flipY setting values are not changed."

/-- Outcome of a settled promise: resolved with a value, or rejected with a
reason.  `error none` models JS `reject()` (reason `undefined`). -/
inductive Result (α : Type) where
  | ok (v : α)
  | error (msg : Option String)
deriving DecidableEq, Repr

def Result.isOk {α : Type} : Result α → Bool
  | .ok _ => true
  | .error _ => false

def Result.isError {α : Type} : Result α → Bool
  | .ok _ => false
  | .error _ => true

/-! ## Collaborator model (graphics.js / the fabric canvas) -/

/-- JS `%` on integers (truncated remainder: the result carries the sign of
the dividend), as `rotation.js` uses it for angle normalization. -/
def jsMod (x n : Int) : Int := if 0 ≤ x then x % n else -((-x) % n)

/-- One entry of the `_objects` registry: the object's fabric type (`'group'`
for groups, `'path'` for icons, ...), its fill color (the property the icon
component reads and writes), its child ids for groups, its rotation angle,
a text object's content, an image object's source URL, and the generic
property bag that `setObjectProperties`/`changeTextStyle` read (`obj[key]`)
and write (`object.set`). -/
structure ObjInfo where
  typ : String
  fill : String
  members : List Nat := []
  angle : Int := 0
  text : String := ""
  src : String := ""
  props : List (String × Option String) := []
deriving DecidableEq, Repr

/-- Observable collaborator state: the ordered list of object ids on the
canvas, the id registry (`graphics._objects`), the stamp counter handing out
fresh object ids (tui-code-snippet `stamp`, used by `_addFabricObject`), the
background image (name and source, `""` meaning empty/null), and the canvas
image's angle and flip settings plus the applied filters. -/
structure Graphics where
  canvas : List Nat
  registry : List (Nat × ObjInfo)
  nextId : Nat := 0
  bgName : String := ""
  bgImage : String := ""
  angle : Int := 0
  flipX : Bool := false
  flipY : Bool := false
  filters : List String := []
deriving DecidableEq, Repr

/-- `Graphics.getObject(id)`: lookup in the `_objects` registry
(`this._objects[id]`, `undefined` when absent). -/
def getObject (g : Graphics) (id : Nat) : Option ObjInfo :=
  (g.registry.find? (fun p => p.1 = id)).map (·.2)

/-- `fabric.Canvas.remove` / `obj.remove()` repeated over a list of objects:
each call detaches the first occurrence of that object from the canvas. -/
def eraseEach (l : List Nat) (ms : List Nat) : List Nat :=
  ms.foldl List.erase l

/-- `Graphics.add(objects)`: appends the objects to the canvas. -/
def addIds (g : Graphics) (ids : List Nat) : Graphics :=
  { g with canvas := g.canvas ++ ids }

/-- `Graphics.removeAll()` (without `includesBackground`): snapshots the object
list, removes every object from the canvas, and returns the snapshot.  The
background image is not part of `canvas.getObjects()` and is untouched. -/
def removeAll (g : Graphics) : List Nat × Graphics :=
  (g.canvas, { g with canvas := [] })

/-- `Graphics.removeObjectById(id)`: resolves the target through the registry;
a non-empty group is flattened (each child is individually detached and
recorded), a plain object on the canvas is detached and recorded, anything
else removes nothing and returns the empty list. -/
def removeObjectById (g : Graphics) (id : Nat) : List Nat × Graphics :=
  match getObject g id with
  | some info =>
    if info.typ = "group" ∧ info.members ≠ [] then
      (info.members, { g with canvas := eraseEach g.canvas info.members })
    else if g.canvas.contains id then
      ([id], { g with canvas := g.canvas.erase id })
    else ([], g)
  | none => ([], g)

/-- Mutating one registered object in place (fabric objects are mutated
through their reference; the registry entry under `id` reflects it). -/
def updateEntry (g : Graphics) (id : Nat) (f : ObjInfo → ObjInfo) : Graphics :=
  { g with registry := g.registry.map (fun p => if p.1 = id then (p.1, f p.2) else p) }

/-- Updating the fill property of the registered object `id`. -/
def setFill (g : Graphics) (id : Nat) (c : String) : Graphics :=
  updateEntry g id (fun i => { i with fill := c })

/-- Modelled from the spec (the text component's source file is not in the
repository snapshot): `Text.change(obj, text)` writes the text content and
resolves; `Text.getText(obj)` reads it. -/
def setText (g : Graphics) (id : Nat) (t : String) : Graphics :=
  updateEntry g id (fun i => { i with text := t })

/-- `targetObj[key]`: reading one generic property; an absent key reads as
undefined. -/
def getProp (info : ObjInfo) (k : String) : Option String :=
  (info.props.lookup k).getD none

/-- `object.set({key: value})` for one key: updates the property in place,
creating it when absent. -/
def setProp (l : List (String × Option String)) (k : String) (v : Option String) :
    List (String × Option String) :=
  if l.any (fun p => p.1 = k) then l.map (fun p => if p.1 = k then (k, v) else p)
  else l ++ [(k, v)]

/-- `object.set(props)`: writing every given property. -/
def setProps (l ps : List (String × Option String)) : List (String × Option String) :=
  ps.foldl (fun acc p => setProp acc p.1 p.2) l

/-- `Graphics.setObjectProperties(id, props)` (and the text component's
`setStyle`, modelled from the spec): `object.set` over the given property
bag. -/
def setObjProps (g : Graphics) (id : Nat) (ps : List (String × Option String)) :
    Graphics :=
  updateEntry g id (fun i => { i with props := setProps i.props ps })

/-- Object creation through the collaborator: a fresh fabric object is built,
added to the canvas, and stamped with the next id (`_onObjectAdded` →
`_addFabricObject`; tui-code-snippet `stamp` hands out increasing ids). -/
def createObject (g : Graphics) (info : ObjInfo) : Nat × Graphics :=
  (g.nextId,
    { g with canvas := g.canvas ++ [g.nextId],
             registry := g.registry ++ [(g.nextId, info)],
             nextId := g.nextId + 1 })

/-- `Graphics.remove(target)` with a possibly-undefined target (the add-command
inverses pass `this.undoData.object`). -/
def removeObj (g : Graphics) (target : Option Nat) : Graphics :=
  match target with
  | some id => { g with canvas := g.canvas.erase id }
  | none => g

/-- One canvas object under `Rotation.setAngle`'s `forEach`: an object on the
canvas gets its angle shifted by the difference (`(obj.angle + angleDiff) %
360`); registry entries not on the canvas are untouched. -/
def rotEntry (C : List Nat) (d : Int) (p : Nat × ObjInfo) : Nat × ObjInfo :=
  if p.1 ∈ C then (p.1, { p.2 with angle := jsMod (p.2.angle + d) 360 }) else p

/-- `Rotation.setAngle(angle)` (component/rotation.js): normalizes the old and
the new angle with JS `%`, sets the image angle, and rotates each canvas
object's angle by the difference.  The accompanying left/top repositioning
(`fabric.util.rotatePoint` over the canvas dimensions) is floating-point
geometry outside this embedding.  Always resolves. -/
def setAngleComp (g : Graphics) (angle : Int) : Graphics :=
  let a := jsMod angle 360
  { g with angle := a,
           registry := g.registry.map (rotEntry g.canvas (a - jsMod g.angle 360)) }

/-- Modelled from the spec (the icon component's source file is not in the
repository snapshot; per the spec's collaborator surface, commands use plain
object property get/set): `Icon.getColor(obj)` reads the object's fill; an
absent object yields no value. -/
def iconGetColor (g : Graphics) (obj : Option Nat) : Option String :=
  obj.bind (fun id => (getObject g id).map (·.fill))

/-- Modelled from the spec (icon component source missing; spec §7: existence
checks precede mutation): `Icon.setColor(color, obj)` writes the object's
fill; with an absent object or an undefined color it mutates nothing. -/
def iconSetColor (g : Graphics) (color : Option String) (obj : Option Nat) : Graphics :=
  match obj, color with
  | some id, some c => setFill g id c
  | _, _ => g

/-- `canvas.clear()`: removes every object from the fabric canvas.  The
tui-level `imageName`/`canvasImage` pair (`setCanvasImage`) lives outside the
fabric canvas and is untouched by it. -/
def canvasClear (g : Graphics) : Graphics := { g with canvas := [] }

/-- `ImageLoader.load(imageName, img)`, from the image-loader source embedded
in the repository snapshot: with neither a name nor an image it resets to the
initial no-image state (`setCanvasImage('', null)`) and resolves; otherwise
`_setBackgroundImage` rejects with a bare `reject()` when the image is falsy,
and on success the image is stored under the name.  The element-load
rejection for a non-empty URL depends on the runtime fetch and is modelled as
success. -/
def loaderLoad (g : Graphics) (name img : String) : Graphics × Result (Option Nat) :=
  if name = "" ∧ img = "" then ({ g with bgName := "", bgImage := "" }, .ok none)
  else if img = "" then (g, .error none)
  else ({ g with bgName := name, bgImage := img }, .ok none)

/-! ## Commands

The reversible units of work found in the repository: the command factory's
`addObject` / `loadImage` / flip / clear / filter / rotation creators, and the
registered commands `removeObject`, `clearObjects`, `changeIconColor`,
`setObjectProperties`, `changeText`, `changeTextStyle`, `addIcon` and
`addImageObject`.  Rotation is embedded at the angle level; the accompanying
left/top repositioning of each object (`fabric.util.rotatePoint`) is
floating-point geometry outside this embedding. -/

inductive FlipType where
  | flipX
  | flipY
  | reset
deriving DecidableEq, Repr

/-- Modelled from the spec (flip component source missing; spec §4.1: forward
snapshots the current `{flipX, flipY}` setting, and a flip with no setting
change is rejected as a no-op): the setting targeted by each flip type. -/
def flipTarget (t : FlipType) (cur : Bool × Bool) : Bool × Bool :=
  match t with
  | .flipX => (!cur.1, cur.2)
  | .flipY => (cur.1, !cur.2)
  | .reset => (false, false)

inductive RotType where
  | setAngle
  | rotate
deriving DecidableEq, Repr

inductive Cmd where
  | addObject (objId : Nat)
  | removeObject (id : Nat)
  | clearObjects
  | changeIconColor (id : Nat) (color : String)
  | loadImage (name url : String)
  | flipImage (t : FlipType)
  | applyFilter (typ : String) (mask : Option Nat)
  | rotateImage (t : RotType) (angle : Int)
  | setObjectProperties (id : Nat) (props : List (String × Option String))
  | changeText (id : Nat) (text : String)
  | changeTextStyle (id : Nat) (styles : List (String × Option String))
  | addIcon (iconType : String) (fill : String)
  | addImageObject (url : String)
deriving DecidableEq, Repr

/-- The per-command-instance mutable bag (`this.undoData` of the registered
commands, `this.store` of the factory-created commands), flattened into one
record; each command uses only its own fields. -/
structure UndoData where
  object : Option Nat := none
  color : Option String := none
  objects : List Nat := []
  prevName : String := ""
  prevImage : String := ""
  prevObjects : List Nat := []
  flipStore : Option (Bool × Bool) := none
  maskStore : Option Nat := none
  angleStore : Option Int := none
  text : String := ""
  styles : List (String × Option String) := []
  props : List (String × Option String) := []
deriving DecidableEq, Repr

/-- Forward actions of the commands, mirrored from the source files.  Returns
the collaborator state, the command's updated undo data, and the settled
promise (resolved values other than an object id are collapsed to `none`). -/
def cmdExecute : Cmd → UndoData → Graphics → Graphics × UndoData × Result (Option Nat)
  | .addObject objId, ud, g =>
    -- createAddObjectCommand.execute: present-check before add; bare reject()
    if g.canvas.contains objId then (g, ud, .error none)
    else ({ g with canvas := g.canvas ++ [objId] }, ud, .ok (some objId))
  | .removeObject id, ud, g =>
    -- removeObject.execute: this.undoData.objects = graphics.removeObjectById(id)
    let p := removeObjectById g id
    let ud' := { ud with objects := p.1 }
    if p.1.isEmpty then (p.2, ud', .error (some noObjectMsg))
    else (p.2, ud', .ok none)
  | .clearObjects, ud, g =>
    -- clearObjects.execute: this.undoData.objects = graphics.removeAll(); resolve()
    let p := removeAll g
    (p.2, { ud with objects := p.1 }, .ok none)
  | .changeIconColor id color, ud, g =>
    match getObject g id with
    | none =>
      -- reject(noObject) lacks a `return`, but with an absent target the
      -- subsequent getColor/setColor mutate nothing observable and the
      -- promise keeps its first settlement, the rejection
      (g, { ud with object := none, color := none }, .error (some noObjectMsg))
    | some info =>
      let ud' := { ud with object := some id, color := some info.fill }
      (iconSetColor g (some color) (some id), ud', .ok none)
  | .loadImage name url, ud, g =>
    -- createLoadImageCommand.execute: snapshot prev name/image/objects,
    -- canvas.clear(), then loader.load(imageName, img) — which may reject
    -- AFTER the canvas was cleared
    let ud' := { ud with
      prevName := g.bgName, prevImage := g.bgImage, prevObjects := g.canvas }
    let r := loaderLoad (canvasClear g) name url
    (r.1, ud', r.2)
  | .flipImage t, ud, g =>
    -- createFlipImageCommand.execute: this.store = current setting; flipComp[type]()
    let cur := (g.flipX, g.flipY)
    let ud' := { ud with flipStore := some cur }
    let tgt := flipTarget t cur
    if tgt = cur then (g, ud', .error (some flipRejectMsg))
    else ({ g with flipX := tgt.1, flipY := tgt.2 }, ud', .ok none)
  | .applyFilter typ mask, ud, g =>
    -- createFilterCommand.execute: a mask filter first detaches the mask
    -- object (recording it), then filterComp.add(type, options)
    if typ = "mask" then
      match mask with
      | none => (g, ud, .error none)
      | some m =>
        let g₁ := { g with canvas := g.canvas.erase m }
        ({ g₁ with filters := typ :: g₁.filters }, { ud with maskStore := some m }, .ok none)
    else ({ g with filters := typ :: g.filters }, ud, .ok none)
  | .rotateImage t angle, ud, g =>
    -- createRotationImageCommand.execute: this.store = getCurrentAngle();
    -- rotationComp[type](angle); rotate(d) = setAngle(current + d)
    let ud' := { ud with angleStore := some g.angle }
    let target := match t with | .setAngle => angle | .rotate => g.angle + angle
    (setAngleComp g target, ud', .ok none)
  | .setObjectProperties id props, ud, g =>
    -- setObjectProperties.execute: missing target rejects before any
    -- mutation; this.undoData.props collects targetObj[key] per given key
    match getObject g id with
    | none => (g, ud, .error (some noObjectMsg))
    | some info =>
      let ud' := { ud with props := props.map (fun p => (p.1, getProp info p.1)) }
      (setObjProps g id props, ud', .ok none)
  | .changeText id text, ud, g =>
    -- changeText.execute: missing target rejects; undoData stores the object
    -- and its current text (text component modelled from the spec)
    match getObject g id with
    | none => (g, ud, .error (some noObjectMsg))
    | some info =>
      let ud' := { ud with object := some id, text := info.text }
      (setText g id text, ud', .ok none)
  | .changeTextStyle id styles, ud, g =>
    -- changeTextStyle.execute: missing target rejects; undoData.styles
    -- collects targetObj[key] per given key
    match getObject g id with
    | none => (g, ud, .error (some noObjectMsg))
    | some info =>
      let ud' := { ud with
        object := some id, styles := styles.map (fun p => (p.1, getProp info p.1)) }
      (setObjProps g id styles, ud', .ok none)
  | .addIcon iconType fill, ud, g =>
    -- addIcon.execute: iconComp.add builds a fresh fabric.Path each call
    -- (icon component modelled from the spec); the new object is stamped with
    -- a fresh id by graphics.js; undoData.object = getObject(props.id)
    let r := createObject g { typ := iconType, fill := fill }
    (r.2, { ud with object := some r.1 }, .ok (some r.1))
  | .addImageObject url, ud, g =>
    -- addImageObject.execute: graphics.addImageObject builds a fresh
    -- fabric.Image via fromURL, added and stamped with a fresh id
    let r := createObject g { typ := "image", fill := "", src := url }
    (r.2, { ud with object := some r.1 }, .ok (some r.1))

/-- Inverse actions of the commands, mirrored from the source files.  None of
them writes the undo data, so only the state and the settled promise are
returned. -/
def cmdUndo : Cmd → UndoData → Graphics → Graphics × Result (Option Nat)
  | .addObject objId, _, g =>
    -- createAddObjectCommand.undo: present-check before remove; bare reject()
    if g.canvas.contains objId then
      ({ g with canvas := g.canvas.erase objId }, .ok (some objId))
    else (g, .error none)
  | .removeObject _, ud, g =>
    -- removeObject.undo: graphics.add(this.undoData.objects)
    (addIds g ud.objects, .ok none)
  | .clearObjects, ud, g =>
    -- clearObjects.undo: graphics.add(this.undoData.objects)
    (addIds g ud.objects, .ok none)
  | .changeIconColor _ _, _, g =>
    -- source bug, embedded faithfully: `const {object: icon, color} =
    -- this.undoData.object;` destructures the stored fabric object instead of
    -- this.undoData; fabric objects own neither an `object` nor a `color`
    -- property, so setColor receives undefined for both and mutates nothing
    (iconSetColor g none none, .ok none)
  | .loadImage _ _, ud, g =>
    -- createLoadImageCommand.undo: canvas.clear(); canvas.add(...store.objects);
    -- loader.load(store.prevName, store.prevImage) — which may reject after
    -- the canvas was rebuilt
    loaderLoad (addIds (canvasClear g) ud.prevObjects) ud.prevName ud.prevImage
  | .flipImage _, ud, g =>
    -- createFlipImageCommand.undo: flipComp.set(this.store) — restores the
    -- captured absolute setting, rejected as a no-op if nothing would change
    let st := ud.flipStore.getD (false, false)
    if (g.flipX, g.flipY) = st then (g, .error (some flipRejectMsg))
    else ({ g with flipX := st.1, flipY := st.2 }, .ok none)
  | .applyFilter typ _, ud, g =>
    -- createFilterCommand.undo: a mask filter reattaches the recorded mask
    -- object, then filterComp.remove(type)
    let g₁ := if typ = "mask" then addIds g ud.maskStore.toList else g
    ({ g₁ with filters := g₁.filters.erase typ }, .ok none)
  | .rotateImage _ _, ud, g =>
    -- createRotationImageCommand.undo: rotationComp.setAngle(this.store)
    (setAngleComp g (ud.angleStore.getD 0), .ok none)
  | .setObjectProperties id _, ud, g =>
    -- setObjectProperties.undo: graphics.setObjectProperties(id, stored props)
    (setObjProps g id ud.props, .ok none)
  | .changeText _ _, ud, g =>
    -- changeText.undo: textComp.change(this.undoData.object, this.undoData.text)
    (match ud.object with
     | some id => setText g id ud.text
     | none => g, .ok none)
  | .changeTextStyle _ _, ud, g =>
    -- changeTextStyle.undo: textComp.setStyle(stored object, stored styles)
    (match ud.object with
     | some id => setObjProps g id ud.styles
     | none => g, .ok none)
  | .addIcon _ _, ud, g =>
    -- addIcon.undo: graphics.remove(this.undoData.object)
    (removeObj g ud.object, .ok none)
  | .addImageObject _, ud, g =>
    -- addImageObject.undo: graphics.remove(this.undoData.object)
    (removeObj g ud.object, .ok none)

/-- Legacy factory clear command (`createClearCommand`): snapshots the object
list into `this.store` first, then rejects (bare `reject()`) when it was
empty, otherwise removes every object individually. -/
def legacyClearExecute (ud : UndoData) (g : Graphics) :
    Graphics × UndoData × Result (Option Nat) :=
  let ud' := { ud with objects := g.canvas }
  if g.canvas.isEmpty then (g, ud', .error none)
  else ({ g with canvas := eraseEach g.canvas g.canvas }, ud', .ok none)

/-- Legacy factory clear command inverse: `canvas.add.apply(canvas, this.store)`. -/
def legacyClearUndo (ud : UndoData) (g : Graphics) : Graphics × Result (Option Nat) :=
  (addIds g ud.objects, .ok none)

/-- The two commands whose forward action constructs a fresh object (a new
fabric instance, stamped with a fresh id, on every run). -/
def createsObject : Cmd → Bool
  | .addIcon _ _ => true
  | .addImageObject _ => true
  | _ => false

/-- Structurally valid arguments: the property bags handed to
`setObjectProperties`/`changeTextStyle` are JS objects, whose keys are
distinct. -/
def ValidArgs : Cmd → Prop
  | .setObjectProperties _ ps => (ps.map Prod.fst).Nodup
  | .changeTextStyle _ ps => (ps.map Prod.fst).Nodup
  | _ => True

/-- The collaborator state up to object identity: the canvas objects in order
(each with every modelled property), the background image, the image angle,
the flip settings and the filters — everything except the numeric stamp ids
and the stamp counter. -/
def observableView (g : Graphics) :
    List (Option ObjInfo) × String × String × Int × Bool × Bool × List String :=
  (g.canvas.map (getObject g), g.bgName, g.bgImage, g.angle, g.flipX, g.flipY, g.filters)

/-! ## The Invoker (invoker.js)

JS arrays used as stacks push/pop at the end; the embedding keeps the top of
each stack at the head of the list.  The `CustomEvents` notifications the
invoker fires are accumulated in an event log, oldest first. -/

/-- A stack-changed notification, carrying the stack's length
(`_fireUndoStackChanged` / `_fireRedoStackChanged`). -/
inductive StackEvent where
  | undoStackChanged (len : Nat)
  | redoStackChanged (len : Nat)
deriving DecidableEq, Repr

/-- A command instance: its recipe plus its private mutable undo data
(`interface/command.js` initializes `this.undoData = {}`). -/
structure CmdInst where
  cmd : Cmd
  undoData : UndoData := {}
deriving DecidableEq, Repr

structure InvokerState where
  undoStack : List CmdInst := []
  redoStack : List CmdInst := []
  isLocked : Bool := false
  events : List StackEvent := []
deriving DecidableEq, Repr

/-- The invoker paired with the collaborator the commands mutate. -/
structure World where
  inv : InvokerState := {}
  graphics : Graphics
deriving DecidableEq, Repr

namespace Invoker

def lock (s : InvokerState) : InvokerState := { s with isLocked := true }

def unlock (s : InvokerState) : InvokerState := { s with isLocked := false }

/-- `fire(UNDO_STACK_CHANGED, this._undoStack.length)` -/
def fireUndoStackChanged (s : InvokerState) : InvokerState :=
  { s with events := s.events ++ [.undoStackChanged s.undoStack.length] }

/-- `fire(REDO_STACK_CHANGED, this._redoStack.length)` -/
def fireRedoStackChanged (s : InvokerState) : InvokerState :=
  { s with events := s.events ++ [.redoStackChanged s.redoStack.length] }

def isEmptyUndoStack (s : InvokerState) : Bool := s.undoStack.isEmpty

def isEmptyRedoStack (s : InvokerState) : Bool := s.redoStack.isEmpty

/-- `pushUndoStack(command, isSilent)` -/
def pushUndoStack (s : InvokerState) (c : CmdInst) (isSilent : Bool) : InvokerState :=
  let s' := { s with undoStack := c :: s.undoStack }
  if isSilent then s' else fireUndoStackChanged s'

/-- `pushRedoStack(command, isSilent)` -/
def pushRedoStack (s : InvokerState) (c : CmdInst) (isSilent : Bool) : InvokerState :=
  let s' := { s with redoStack := c :: s.redoStack }
  if isSilent then s' else fireRedoStackChanged s'

/-- `clearUndoStack()` -/
def clearUndoStack (s : InvokerState) : InvokerState :=
  if isEmptyUndoStack s then s
  else fireUndoStackChanged { s with undoStack := [] }

/-- `clearRedoStack()` -/
def clearRedoStack (s : InvokerState) : InvokerState :=
  if isEmptyRedoStack s then s
  else fireRedoStackChanged { s with redoStack := [] }

/-- `_invokeExecution(command)`: lock, run the forward action; on success push
to the undo stack (with its notification) and unlock; on failure unlock and
re-reject with the command's failure reason. -/
def invokeExecution (w : World) (c : CmdInst) : World × Result (Option Nat) :=
  let s := lock w.inv
  match cmdExecute c.cmd c.undoData w.graphics with
  | (g', ud', .ok v) =>
    ({ inv := unlock (pushUndoStack s { c with undoData := ud' } false), graphics := g' },
      .ok v)
  | (g', _, .error m) => ({ inv := unlock s, graphics := g' }, .error m)

/-- `_invokeUndo(command)`: lock, run the inverse action; on success push to
the redo stack (with its notification) and unlock; on failure unlock and
re-reject. -/
def invokeUndo (w : World) (c : CmdInst) : World × Result (Option Nat) :=
  let s := lock w.inv
  match cmdUndo c.cmd c.undoData w.graphics with
  | (g', .ok v) =>
    ({ inv := unlock (pushRedoStack s c false), graphics := g' }, .ok v)
  | (g', .error m) => ({ inv := unlock s, graphics := g' }, .error m)

/-- `execute(...)`: rejects immediately with the lock reason when locked;
otherwise runs the forward action and, on success, clears the redo stack. -/
def execute (w : World) (c : CmdInst) : World × Result (Option Nat) :=
  if w.inv.isLocked then (w, .error (some isLockMsg))
  else
    match invokeExecution w c with
    | (w', .ok v) => ({ w' with inv := clearRedoStack w'.inv }, .ok v)
    | (w', .error m) => (w', .error m)

/-- The `undo()` rejection message: `rejectMessages.undo`, with
`` ` Because ${rejectMessages.isLock}` `` appended when locked. -/
def undoFailMsg (locked : Bool) : String :=
  if locked then undoRejectMsg ++ " Because " ++ isLockMsg else undoRejectMsg

/-- The `redo()` rejection message, built the same way. -/
def redoFailMsg (locked : Bool) : String :=
  if locked then redoRejectMsg ++ " Because " ++ isLockMsg else redoRejectMsg

/-- `undo()`: pops the undo stack; a popped command found while locked is
pushed back silently and the call rejects with the combined message; with a
command in hand, the undo-stack notification is fired eagerly when the pop
emptied the stack, then the inverse runs. -/
def undo (w : World) : World × Result (Option Nat) :=
  match w.inv.undoStack with
  | [] => (w, .error (some (undoFailMsg w.inv.isLocked)))
  | c :: rest =>
    if w.inv.isLocked then
      ({ w with inv := pushUndoStack { w.inv with undoStack := rest } c true },
        .error (some (undoFailMsg true)))
    else
      let s := { w.inv with undoStack := rest }
      let s := if isEmptyUndoStack s then fireUndoStackChanged s else s
      invokeUndo { w with inv := s } c

/-- `redo()`: symmetric to `undo`, popping the redo stack and re-running the
forward action via `_invokeExecution` (without clearing the redo stack). -/
def redo (w : World) : World × Result (Option Nat) :=
  match w.inv.redoStack with
  | [] => (w, .error (some (redoFailMsg w.inv.isLocked)))
  | c :: rest =>
    if w.inv.isLocked then
      ({ w with inv := pushRedoStack { w.inv with redoStack := rest } c true },
        .error (some (redoFailMsg true)))
    else
      let s := { w.inv with redoStack := rest }
      let s := if isEmptyRedoStack s then fireRedoStackChanged s else s
      invokeExecution { w with inv := s } c

end Invoker

/-! ## Concrete fixtures used by the witness theorems -/

def gEmpty : Graphics := { canvas := [], registry := [] }

def gOne : Graphics := { canvas := [1], registry := [(1, { typ := "rect", fill := "red" })] }

def cClear : CmdInst := { cmd := .clearObjects }

/-- Concrete fixture whose stamp counter is ahead of every object id. -/
def gNext : Graphics := { gOne with nextId := 2 }

/-- Concrete fixture with a two-child group for the remove-object claims. -/
def gGroup : Graphics :=
  { canvas := [1, 2, 7],
    registry := [(1, { typ := "rect", fill := "a" }),
                 (2, { typ := "rect", fill := "b" }),
                 (7, { typ := "rect", fill := "c" }),
                 (9, { typ := "group", fill := "", members := [1, 2] })] }

/-! ## Basic invoker lemmas -/

theorem clearRedoStack_redoStack (s : InvokerState) :
    (Invoker.clearRedoStack s).redoStack = [] := by
  unfold Invoker.clearRedoStack Invoker.isEmptyRedoStack Invoker.fireRedoStackChanged
  split
  · next h => exact List.isEmpty_iff.mp h
  · rfl

/-- Shape of `_invokeExecution`: the outcome and state are determined by the
command's forward action. -/
theorem invokeExecution_spec (w : World) (c : CmdInst) :
    (∃ g' ud' v, cmdExecute c.cmd c.undoData w.graphics = (g', ud', .ok v) ∧
      Invoker.invokeExecution w c =
        ({ inv := Invoker.unlock
              (Invoker.pushUndoStack (Invoker.lock w.inv) ⟨c.cmd, ud'⟩ false),
           graphics := g' }, .ok v)) ∨
    (∃ g' ud' m, cmdExecute c.cmd c.undoData w.graphics = (g', ud', .error m) ∧
      Invoker.invokeExecution w c =
        ({ inv := Invoker.unlock (Invoker.lock w.inv), graphics := g' }, .error m)) := by
  rcases h : cmdExecute c.cmd c.undoData w.graphics with ⟨g', ud', r⟩
  cases r with
  | ok v =>
    left
    exact ⟨g', ud', v, rfl, by simp [Invoker.invokeExecution, h]⟩
  | error m =>
    right
    exact ⟨g', ud', m, rfl, by simp [Invoker.invokeExecution, h]⟩

/-- Shape of `_invokeUndo`. -/
theorem invokeUndo_spec (w : World) (c : CmdInst) :
    (∃ g' v, cmdUndo c.cmd c.undoData w.graphics = (g', .ok v) ∧
      Invoker.invokeUndo w c =
        ({ inv := Invoker.unlock (Invoker.pushRedoStack (Invoker.lock w.inv) c false),
           graphics := g' }, .ok v)) ∨
    (∃ g' m, cmdUndo c.cmd c.undoData w.graphics = (g', .error m) ∧
      Invoker.invokeUndo w c =
        ({ inv := Invoker.unlock (Invoker.lock w.inv), graphics := g' }, .error m)) := by
  rcases h : cmdUndo c.cmd c.undoData w.graphics with ⟨g', r⟩
  cases r with
  | ok v => exact .inl ⟨g', v, rfl, by simp [Invoker.invokeUndo, h]⟩
  | error m => exact .inr ⟨g', m, rfl, by simp [Invoker.invokeUndo, h]⟩

/-! ## Claim theorems: invoker behavior -/

/-- C2: an `execute()` issued while the invoker's lock flag is set rejects
immediately with the `Locked` reason, runs no forward action, and leaves the
whole invoker state — in particular both stacks — and the collaborator
unchanged (no queueing). -/
theorem execute_while_locked_rejects (w : World) (c : CmdInst)
    (h : w.inv.isLocked = true) :
    Invoker.execute w c = (w, .error (some isLockMsg)) := by
  simp [Invoker.execute, h]

theorem execute_while_locked_rejects_witness :
    (({ inv := { isLocked := true }, graphics := gEmpty } : World).inv.isLocked = true) ∧
      Invoker.execute { inv := { isLocked := true }, graphics := gEmpty } cClear =
        ({ inv := { isLocked := true }, graphics := gEmpty }, .error (some isLockMsg)) :=
  ⟨rfl, execute_while_locked_rejects { inv := { isLocked := true }, graphics := gEmpty }
    cClear rfl⟩

/-- C3: every successful `execute()` clears the redo stack entirely: once the
returned promise has resolved, `isEmptyRedoStack()` is true, whatever the
history was. -/
theorem execute_ok_clears_redo (w : World) (c : CmdInst) (w' : World) (v : Option Nat)
    (h : Invoker.execute w c = (w', .ok v)) :
    w'.inv.redoStack = [] ∧ Invoker.isEmptyRedoStack w'.inv = true := by
  unfold Invoker.execute at h
  split at h
  · exact absurd (congrArg Prod.snd h) (by simp)
  · rcases invokeExecution_spec w c with ⟨g', ud', v', _, heq⟩ | ⟨g', ud', m, _, heq⟩
    · rw [heq] at h
      simp only [Prod.mk.injEq] at h
      have hinv : w'.inv = Invoker.clearRedoStack
          ({ inv := Invoker.unlock
                (Invoker.pushUndoStack (Invoker.lock w.inv) ⟨c.cmd, ud'⟩ false),
             graphics := g' } : World).inv := by
        rw [← h.1]
      have hred : w'.inv.redoStack = [] := by rw [hinv, clearRedoStack_redoStack]
      exact ⟨hred, by simp [Invoker.isEmptyRedoStack, hred]⟩
    · rw [heq] at h
      exact absurd (congrArg Prod.snd h) (by simp)

theorem execute_ok_clears_redo_witness :
    (Invoker.execute { graphics := gOne } cClear =
        ((Invoker.execute { graphics := gOne } cClear).1, .ok none)) ∧
      (Invoker.execute { graphics := gOne } cClear).1.inv.redoStack = [] ∧
      Invoker.isEmptyRedoStack (Invoker.execute { graphics := gOne } cClear).1.inv = true :=
  ⟨rfl, execute_ok_clears_redo { graphics := gOne } cClear _ none rfl⟩

/-- C4: when a command's forward action fails during `execute()`, the invoker
unlocks, the returned promise rejects with the command's own failure reason,
and the undo stack, the redo stack and the event log are exactly as before the
call. -/
theorem execute_failure_propagates (w : World) (c : CmdInst)
    (hl : w.inv.isLocked = false)
    (g' : Graphics) (ud' : UndoData) (m : Option String)
    (hf : cmdExecute c.cmd c.undoData w.graphics = (g', ud', .error m)) :
    Invoker.execute w c =
      ({ inv := { undoStack := w.inv.undoStack, redoStack := w.inv.redoStack,
                  isLocked := false, events := w.inv.events },
         graphics := g' }, .error m) := by
  simp [Invoker.execute, Invoker.invokeExecution, hl, hf, Invoker.lock, Invoker.unlock]

theorem execute_failure_propagates_witness :
    (({ graphics := gEmpty } : World).inv.isLocked = false) ∧
      (cmdExecute (Cmd.changeIconColor 5 "blue") {} gEmpty =
        (gEmpty, { object := none, color := none }, .error (some noObjectMsg))) ∧
      Invoker.execute { graphics := gEmpty } { cmd := Cmd.changeIconColor 5 "blue" } =
        ({ inv := { undoStack := [], redoStack := [], isLocked := false, events := [] },
           graphics := gEmpty }, .error (some noObjectMsg)) :=
  ⟨rfl, by decide,
    execute_failure_propagates { graphics := gEmpty } { cmd := Cmd.changeIconColor 5 "blue" }
      rfl gEmpty { object := none, color := none } (some noObjectMsg) (by decide)⟩

/-- C5: `undo()` on an empty undo stack rejects with the `EmptyUndo` reason and
changes nothing (in particular the redo stack); `undo()` while locked with a
non-empty undo stack silently pushes the popped command back — no event is
fired and the whole state is exactly as before — and rejects with the combined
`EmptyUndo`/`Locked` message. -/
theorem undo_empty_and_locked (w : World) :
    (w.inv.undoStack = [] → w.inv.isLocked = false →
      Invoker.undo w = (w, .error (some undoRejectMsg))) ∧
    (∀ c rest, w.inv.undoStack = c :: rest → w.inv.isLocked = true →
      Invoker.undo w =
        (w, .error (some (undoRejectMsg ++ " Because " ++ isLockMsg)))) := by
  constructor
  · intro hs hl
    simp [Invoker.undo, hs, hl, Invoker.undoFailMsg]
  · intro c rest hs hl
    have h1 : Invoker.pushUndoStack (InvokerState.mk rest w.inv.redoStack true w.inv.events)
        c true = w.inv := by
      simp only [Invoker.pushUndoStack, if_true]
      rw [← hs, ← hl]
    simp only [Invoker.undo, hs, hl, if_true, Invoker.undoFailMsg, h1]

theorem undo_empty_and_locked_witness :
    (({ graphics := gEmpty } : World).inv.undoStack = [] ∧
      ({ graphics := gEmpty } : World).inv.isLocked = false ∧
      Invoker.undo { graphics := gEmpty } =
        ({ graphics := gEmpty }, .error (some undoRejectMsg))) ∧
    (({ inv := { undoStack := [cClear], isLocked := true }, graphics := gEmpty } : World).inv.undoStack
        = cClear :: [] ∧
      Invoker.undo { inv := { undoStack := [cClear], isLocked := true }, graphics := gEmpty } =
        ({ inv := { undoStack := [cClear], isLocked := true }, graphics := gEmpty },
          .error (some (undoRejectMsg ++ " Because " ++ isLockMsg)))) :=
  ⟨⟨rfl, rfl, (undo_empty_and_locked { graphics := gEmpty }).1 rfl rfl⟩,
    ⟨rfl, (undo_empty_and_locked
      { inv := { undoStack := [cClear], isLocked := true }, graphics := gEmpty }).2
      cClear [] rfl rfl⟩⟩

/-- C9: a successful `undo()` fires an undo-stack-changed notification exactly
when the pop leaves the undo stack empty; popping from a stack of length two
or more appends only the single redo-stack notification (fired after the
inverse succeeded), so no undo-stack length is reported on such pops. -/
theorem undo_event_behavior (w : World) (c : CmdInst) (rest : List CmdInst)
    (hs : w.inv.undoStack = c :: rest) (hl : w.inv.isLocked = false)
    (g₂ : Graphics) (v : Option Nat)
    (hu : cmdUndo c.cmd c.undoData w.graphics = (g₂, .ok v)) :
    ((Invoker.undo w).1.inv.events =
        w.inv.events ++
          (if rest.isEmpty then [StackEvent.undoStackChanged 0] else []) ++
          [StackEvent.redoStackChanged (w.inv.redoStack.length + 1)]) ∧
    (rest ≠ [] → (Invoker.undo w).1.inv.events =
        w.inv.events ++ [StackEvent.redoStackChanged (w.inv.redoStack.length + 1)]) := by
  have key : (Invoker.undo w).1.inv.events =
      w.inv.events ++
        (if rest.isEmpty then [StackEvent.undoStackChanged 0] else []) ++
        [StackEvent.redoStackChanged (w.inv.redoStack.length + 1)] := by
    simp only [Invoker.undo, hs, hl, if_neg Bool.false_ne_true, Bool.false_eq_true,
      if_false]
    rcases he : rest.isEmpty with _ | _
    · simp only [Invoker.isEmptyUndoStack, he, Bool.false_eq_true, if_false]
      simp [Invoker.invokeUndo, hu, Invoker.lock, Invoker.unlock, Invoker.pushRedoStack,
        Invoker.fireRedoStackChanged]
    · simp only [Invoker.isEmptyUndoStack, he, if_true]
      simp [Invoker.invokeUndo, hu, Invoker.lock, Invoker.unlock, Invoker.pushRedoStack,
        Invoker.fireRedoStackChanged, Invoker.fireUndoStackChanged,
        List.isEmpty_iff.mp he]
  refine ⟨key, fun hne => ?_⟩
  rw [key]
  simp [List.isEmpty_iff, hne]

theorem undo_event_behavior_witness :
    (({ inv := { undoStack := [cClear, cClear] },
        graphics := gEmpty } : World).inv.undoStack = cClear :: [cClear]) ∧
      (cmdUndo cClear.cmd cClear.undoData gEmpty = (gEmpty, .ok none)) ∧
      ((Invoker.undo { inv := { undoStack := [cClear, cClear] }, graphics := gEmpty }).1.inv.events
        = [StackEvent.redoStackChanged 1]) :=
  ⟨rfl, by decide,
    (undo_event_behavior { inv := { undoStack := [cClear, cClear] }, graphics := gEmpty }
      cClear [cClear] rfl rfl gEmpty none (by decide)).2 (by simp)⟩

/-- C10: `clearUndoStack()`/`clearRedoStack()` on an already-empty stack return
the state untouched and fire nothing; on a non-empty stack they empty exactly
that stack and fire exactly one stack-changed notification (length 0), leaving
the other stack and the lock flag as they were. -/
theorem clear_stack_behavior :
    (∀ s : InvokerState, s.undoStack = [] → Invoker.clearUndoStack s = s) ∧
    (∀ s : InvokerState, s.undoStack ≠ [] →
      Invoker.clearUndoStack s =
        { s with undoStack := [],
                 events := s.events ++ [StackEvent.undoStackChanged 0] }) ∧
    (∀ s : InvokerState, s.redoStack = [] → Invoker.clearRedoStack s = s) ∧
    (∀ s : InvokerState, s.redoStack ≠ [] →
      Invoker.clearRedoStack s =
        { s with redoStack := [],
                 events := s.events ++ [StackEvent.redoStackChanged 0] }) := by
  refine ⟨fun s h => ?_, fun s h => ?_, fun s h => ?_, fun s h => ?_⟩ <;>
    simp [Invoker.clearUndoStack, Invoker.clearRedoStack, Invoker.isEmptyUndoStack,
      Invoker.isEmptyRedoStack, Invoker.fireUndoStackChanged, Invoker.fireRedoStackChanged,
      List.isEmpty_iff, h]

/-! ## List lemmas about repeated `erase` -/

theorem mem_of_mem_eraseEach {x : Nat} {ms l : List Nat} (h : x ∈ eraseEach l ms) :
    x ∈ l := by
  induction ms generalizing l with
  | nil => exact h
  | cons m t ih => exact List.mem_of_mem_erase (ih h)

theorem not_mem_eraseEach_self {x : Nat} {ms l : List Nat} (hl : l.Nodup)
    (hx : x ∈ ms) : x ∉ eraseEach l ms := by
  induction ms generalizing l with
  | nil => cases hx
  | cons m t ih =>
    show x ∉ eraseEach (l.erase m) t
    rcases List.mem_cons.mp hx with rfl | hxt
    · intro hmem
      exact ((hl.mem_erase_iff).mp (mem_of_mem_eraseEach hmem)).1 rfl
    · exact ih (hl.erase m) hxt

theorem eraseEach_append_self {ms l : List Nat} (h : ∀ m ∈ ms, m ∉ l) :
    eraseEach (l ++ ms) ms = l := by
  induction ms generalizing l with
  | nil => simp [eraseEach]
  | cons m t ih =>
    show eraseEach ((l ++ m :: t).erase m) t = l
    rw [List.erase_append_right _ (h m (List.mem_cons_self m t)), List.erase_cons_head]
    exact ih (fun m' hm' => h m' (List.mem_cons_of_mem m hm'))

theorem eraseEach_self (l : List Nat) : eraseEach l l = [] := by
  induction l with
  | nil => rfl
  | cons a t ih =>
    show eraseEach ((a :: t).erase a) t = []
    rw [List.erase_cons_head]
    exact ih

theorem removeObjectById_empty {g : Graphics} {id : Nat}
    (h : (removeObjectById g id).1 = []) : (removeObjectById g id).2 = g := by
  unfold removeObjectById at h ⊢
  rcases hg : getObject g id with _ | info
  · simp only [hg]
  · simp only [hg] at h ⊢
    by_cases hgrp : info.typ = "group" ∧ info.members ≠ []
    · rw [if_pos hgrp] at h
      exact absurd h hgrp.2
    · rw [if_neg hgrp] at h ⊢
      by_cases hc : g.canvas.contains id = true
      · rw [if_pos hc] at h
        simp at h
      · rw [if_neg hc]

/-! ## Lemmas about `updateEntry` and `getObject` -/

theorem getObject_updateEntry (g : Graphics) (id : Nat) (f : ObjInfo → ObjInfo) :
    getObject (updateEntry g id f) id = (getObject g id).map (fun i => (id, f i).2) := by
  unfold getObject updateEntry
  simp only
  induction g.registry with
  | nil => rfl
  | cons p t ih =>
    by_cases hp : p.1 = id
    · simp [List.find?_cons_of_pos, hp]
    · simp only [List.map_cons]
      rw [List.find?_cons_of_neg, List.find?_cons_of_neg]
      · exact ih
      · simpa using hp
      · simp [hp]

theorem updateEntry_updateEntry (g : Graphics) (id : Nat) (f h : ObjInfo → ObjInfo) :
    updateEntry (updateEntry g id h) id f = updateEntry g id (fun i => f (h i)) := by
  unfold updateEntry
  show ({ g with
    registry := (g.registry.map (fun p => if p.1 = id then (p.1, h p.2) else p)).map
      (fun p => if p.1 = id then (p.1, f p.2) else p) } : Graphics) = _
  rw [List.map_map]
  have hmap : g.registry.map
      ((fun p => if p.1 = id then (p.1, f p.2) else p) ∘
        (fun p : Nat × ObjInfo => if p.1 = id then (p.1, h p.2) else p)) =
      g.registry.map (fun p => if p.1 = id then (p.1, f (h p.2)) else p) := by
    apply List.map_congr_left
    intro p _
    by_cases hp : p.1 = id <;> simp [hp]
  rw [hmap]

theorem updateEntry_congr (g : Graphics) (id : Nat) (f h : ObjInfo → ObjInfo)
    (hfh : ∀ i, f i = h i) : updateEntry g id f = updateEntry g id h := by
  unfold updateEntry
  congr 1
  apply List.map_congr_left
  intro p _
  by_cases hp : p.1 = id <;> simp [hp, hfh]

theorem getObject_setFill (g : Graphics) (id : Nat) (c : String) :
    getObject (setFill g id c) id = (getObject g id).map (fun i => { i with fill := c }) :=
  getObject_updateEntry g id _

theorem setFill_setFill (g : Graphics) (id : Nat) (c : String) :
    setFill (setFill g id c) id c = setFill g id c := by
  unfold setFill
  rw [updateEntry_updateEntry]

/-! ## JS remainder lemmas -/

theorem jsMod_idem (x : Int) : jsMod (jsMod x 360) 360 = jsMod x 360 := by
  unfold jsMod
  split_ifs <;> omega

set_option maxHeartbeats 1000000 in
theorem jsMod_round (o d : Int) (ho : jsMod o 360 = o) :
    jsMod (jsMod (jsMod (o + d) 360 - d) 360 + d) 360 = jsMod (o + d) 360 := by
  unfold jsMod at ho ⊢
  split_ifs at ho ⊢ <;> omega

/-! ## Rotation lemmas: rotating by `d`, back by `-d`, and by `d` again lands
on the first rotation exactly, provided the starting angle was reduced -/

theorem rotEntry_round (C : List Nat) (a b : Int) (p : Nat × ObjInfo)
    (hp : jsMod p.2.angle 360 = p.2.angle) :
    rotEntry C (a - b) (rotEntry C (b - a) (rotEntry C (a - b) p)) = rotEntry C (a - b) p := by
  unfold rotEntry
  by_cases hm : p.1 ∈ C
  · simp only [hm, if_pos]
    rw [show jsMod (p.2.angle + (a - b)) 360 + (b - a) =
      jsMod (p.2.angle + (a - b)) 360 - (a - b) by ring]
    rw [jsMod_round p.2.angle (a - b) hp]
  · simp [hm]

theorem setAngleComp_round (g : Graphics) (T : Int)
    (ha : jsMod g.angle 360 = g.angle)
    (hang : ∀ p ∈ g.registry, jsMod p.2.angle 360 = p.2.angle) :
    setAngleComp (setAngleComp (setAngleComp g T) g.angle) T = setAngleComp g T := by
  unfold setAngleComp
  simp only [ha, jsMod_idem, List.map_map]
  congr 1
  apply List.map_congr_left
  intro p hp
  exact rotEntry_round g.canvas (jsMod T 360) g.angle p (hang p hp)

theorem setAngleComp_angle (g : Graphics) (T : Int) :
    (setAngleComp g T).angle = jsMod T 360 := rfl

/-! ## Property-bag lemmas: writing a property bag on top of any earlier write
with the same keys equals writing it directly -/

theorem setProps_cons (l : List (String × Option String)) (p : String × Option String)
    (ps : List (String × Option String)) :
    setProps l (p :: ps) = setProps (setProp l p.1 p.2) ps := rfl

theorem not_any_key {l : List (String × Option String)} {k : String}
    (h : ¬ l.any (fun p => p.1 = k) = true) : ∀ p ∈ l, p.1 ≠ k := by
  intro p hp hk
  exact h (List.any_eq_true.mpr ⟨p, hp, by simp [hk]⟩)

theorem any_key_map_update (l : List (String × Option String)) (k q : String)
    (v : Option String) :
    (l.map (fun p => if p.1 = k then (k, v) else p)).any (fun p => p.1 = q) =
      l.any (fun p => p.1 = q) := by
  induction l with
  | nil => rfl
  | cons p t ih =>
    simp only [List.map_cons, List.any_cons, ih]
    by_cases hp : p.1 = k
    · simp [hp]
    · simp [hp]

theorem map_update_of_absent (l : List (String × Option String)) (k : String)
    (v : Option String) (h : ∀ p ∈ l, p.1 ≠ k) :
    l.map (fun p => if p.1 = k then (k, v) else p) = l := by
  conv_rhs => rw [← List.map_id l]
  apply List.map_congr_left
  intro p hp
  simp [h p hp]

theorem any_key_setProp_self (l : List (String × Option String)) (k : String)
    (v : Option String) : (setProp l k v).any (fun p => p.1 = k) = true := by
  unfold setProp
  split
  · next h =>
    rw [any_key_map_update]
    exact h
  · rw [List.any_append]
    simp

theorem any_key_setProp_preserve (l : List (String × Option String)) (k q : String)
    (w : Option String) (h : l.any (fun p => p.1 = k) = true) :
    (setProp l q w).any (fun p => p.1 = k) = true := by
  unfold setProp
  split
  · rw [any_key_map_update]
    exact h
  · rw [List.any_append]
    simp [h]

theorem setProp_setProp_same (l : List (String × Option String)) (k : String)
    (u v : Option String) : setProp (setProp l k u) k v = setProp l k v := by
  by_cases h : l.any (fun p => p.1 = k) = true
  · rw [show setProp l k u = l.map (fun p => if p.1 = k then (k, u) else p) from by
      unfold setProp; rw [if_pos h]]
    unfold setProp
    rw [if_pos (by rw [any_key_map_update]; exact h), if_pos h, List.map_map]
    apply List.map_congr_left
    intro p _
    by_cases hp : p.1 = k <;> simp [hp]
  · rw [show setProp l k u = l ++ [(k, u)] from by unfold setProp; rw [if_neg h]]
    unfold setProp
    rw [if_pos (by rw [List.any_append]; simp), if_neg h, List.map_append,
      map_update_of_absent l k v (not_any_key h)]
    simp

theorem setProp_comm_of_present (l : List (String × Option String)) (k q : String)
    (v w : Option String) (hpres : l.any (fun p => p.1 = k) = true) (hne : q ≠ k) :
    setProp (setProp l k v) q w = setProp (setProp l q w) k v := by
  by_cases hq : l.any (fun p => p.1 = q) = true
  · rw [show setProp l k v = l.map (fun p => if p.1 = k then (k, v) else p) from by
      unfold setProp; rw [if_pos hpres]]
    rw [show setProp l q w = l.map (fun p => if p.1 = q then (q, w) else p) from by
      unfold setProp; rw [if_pos hq]]
    unfold setProp
    rw [if_pos (by rw [any_key_map_update]; exact hq),
      if_pos (by rw [any_key_map_update]; exact hpres), List.map_map, List.map_map]
    apply List.map_congr_left
    intro p _
    by_cases hpk : p.1 = k
    · have hpq : ¬ p.1 = q := by rw [hpk]; exact fun hc => hne hc.symm
      simp [hpk, hpq, Ne.symm hne, hne]
    · by_cases hpq : p.1 = q <;> simp [hpk, hpq, hne]
  · rw [show setProp l q w = l ++ [(q, w)] from by unfold setProp; rw [if_neg hq]]
    rw [show setProp l k v = l.map (fun p => if p.1 = k then (k, v) else p) from by
      unfold setProp; rw [if_pos hpres]]
    unfold setProp
    rw [if_neg (by rw [any_key_map_update]; exact hq),
      if_pos (by rw [List.any_append]; simp [hpres]), List.map_append,
      show ([(q, w)] : List (String × Option String)).map
        (fun p => if p.1 = k then (k, v) else p) = [(q, w)] from by simp [hne]]

theorem setProps_setProp_comm (ps : List (String × Option String))
    (l : List (String × Option String)) (k : String) (v : Option String)
    (hk : ∀ p ∈ ps, p.1 ≠ k) (hpres : l.any (fun p => p.1 = k) = true) :
    setProps (setProp l k v) ps = setProp (setProps l ps) k v := by
  induction ps generalizing l with
  | nil => rfl
  | cons p t ih =>
    rw [setProps_cons, setProps_cons,
      setProp_comm_of_present l k p.1 v p.2 hpres (hk p (List.mem_cons_self p t))]
    exact ih (setProp l p.1 p.2) (fun q hq => hk q (List.mem_cons_of_mem p hq))
      (any_key_setProp_preserve l k p.1 p.2 hpres)

theorem setProps_override (ps qs l : List (String × Option String))
    (hkeys : ps.map Prod.fst = qs.map Prod.fst) (hnd : (ps.map Prod.fst).Nodup) :
    setProps (setProps l qs) ps = setProps l ps := by
  induction ps generalizing qs l with
  | nil =>
    cases qs with
    | nil => rfl
    | cons q qt => simp at hkeys
  | cons p pt ih =>
    cases qs with
    | nil => simp at hkeys
    | cons q qt =>
      simp only [List.map_cons, List.cons.injEq] at hkeys
      obtain ⟨hpq, htl⟩ := hkeys
      simp only [List.map_cons, List.nodup_cons] at hnd
      obtain ⟨hph, hnd'⟩ := hnd
      have hqt : ∀ r ∈ qt, r.1 ≠ p.1 := by
        intro r hr hc
        exact hph (by rw [htl]; exact hc ▸ List.mem_map_of_mem Prod.fst hr)
      rw [setProps_cons, setProps_cons,
        ← setProps_setProp_comm qt (setProp l q.1 q.2) p.1 p.2 hqt
          (by rw [hpq]; exact any_key_setProp_self l q.1 q.2),
        show setProp (setProp l q.1 q.2) p.1 p.2 = setProp l p.1 p.2 from by
          rw [hpq]; exact setProp_setProp_same l q.1 q.2 p.2]
      exact ih qt (setProp l p.1 p.2) htl hnd'

theorem getObject_setObjProps (g : Graphics) (id : Nat)
    (ps : List (String × Option String)) :
    getObject (setObjProps g id ps) id =
      (getObject g id).map (fun i => { i with props := setProps i.props ps }) := by
  unfold setObjProps
  rw [getObject_updateEntry]

theorem getObject_setText (g : Graphics) (id : Nat) (t : String) :
    getObject (setText g id t) id =
      (getObject g id).map (fun i => { i with text := t }) := by
  unfold setText
  rw [getObject_updateEntry]

/-- Re-writing a property bag after an intermediate write with the same keys
collapses to the first write. -/
theorem setObjProps_collapse (g : Graphics) (id : Nat)
    (ps qs : List (String × Option String))
    (hkeys : ps.map Prod.fst = qs.map Prod.fst) (hnd : (ps.map Prod.fst).Nodup) :
    setObjProps (setObjProps (setObjProps g id ps) id qs) id ps =
      setObjProps g id ps := by
  unfold setObjProps
  rw [updateEntry_updateEntry, updateEntry_updateEntry]
  apply updateEntry_congr
  intro i
  dsimp only
  rw [setProps_override ps qs _ hkeys hnd, setProps_override ps ps _ rfl hnd]

theorem setText_collapse (g : Graphics) (id : Nat) (t u : String) :
    setText (setText (setText g id t) id u) id t = setText g id t := by
  unfold setText
  rw [updateEntry_updateEntry, updateEntry_updateEntry]

/-- `setObjectProperties.execute` on a present target resolves, writing the
given property bag. -/
theorem setObjectProperties_execute_of_isSome (g : Graphics) (id : Nat)
    (ps : List (String × Option String)) (ud : UndoData)
    (h : (getObject g id).isSome = true) :
    ∃ ud2, cmdExecute (.setObjectProperties id ps) ud g =
      (setObjProps g id ps, ud2, .ok none) := by
  rcases hgo : getObject g id with _ | info
  · rw [hgo] at h
    simp at h
  · refine ⟨{ ud with props := ps.map (fun p => (p.1, getProp info p.1)) }, ?_⟩
    simp only [cmdExecute, hgo]

/-- `changeTextStyle.execute` on a present target resolves, writing the given
style bag. -/
theorem changeTextStyle_execute_of_isSome (g : Graphics) (id : Nat)
    (ps : List (String × Option String)) (ud : UndoData)
    (h : (getObject g id).isSome = true) :
    ∃ ud2, cmdExecute (.changeTextStyle id ps) ud g =
      (setObjProps g id ps, ud2, .ok none) := by
  rcases hgo : getObject g id with _ | info
  · rw [hgo] at h
    simp at h
  · refine ⟨{ ud with
      object := some id, styles := ps.map (fun p => (p.1, getProp info p.1)) }, ?_⟩
    simp only [cmdExecute, hgo]

/-- `changeText.execute` on a present target resolves, writing the new text. -/
theorem changeText_execute_of_isSome (g : Graphics) (id : Nat) (t : String)
    (ud : UndoData) (h : (getObject g id).isSome = true) :
    ∃ ud2, cmdExecute (.changeText id t) ud g = (setText g id t, ud2, .ok none) := by
  rcases hgo : getObject g id with _ | info
  · rw [hgo] at h
    simp at h
  · refine ⟨{ ud with object := some id, text := info.text }, ?_⟩
    simp only [cmdExecute, hgo]

/-! ## Registry lookup over appended (freshly stamped) entries -/

theorem find?_key_append_ne (R : List (Nat × ObjInfo)) (n x : Nat) (info : ObjInfo)
    (hx : x ≠ n) :
    (R ++ [(n, info)]).find? (fun p => p.1 = x) = R.find? (fun p => p.1 = x) := by
  rw [List.find?_append]
  rcases h : R.find? (fun p => p.1 = x) with _ | v <;> rw [h]
  · simp [List.find?, Ne.symm hx, hx]
  · rfl

theorem find?_key_append_self (R : List (Nat × ObjInfo)) (n : Nat) (info : ObjInfo)
    (h : ∀ p ∈ R, p.1 ≠ n) :
    (R ++ [(n, info)]).find? (fun p => p.1 = n) = some (n, info) := by
  rw [List.find?_append, List.find?_eq_none.mpr (fun p hp => by simp [h p hp])]
  simp [List.find?]

theorem getObject_update_canvas (g : Graphics) (X : List Nat) (id : Nat) :
    getObject { g with canvas := X } id = getObject g id := rfl

/-! ## Creating commands: removing the created object and re-creating it
reproduces the same observable view (under a fresh stamp id) -/

theorem create_remove_create_view (g : Graphics) (info : ObjInfo)
    (hfC : ∀ x ∈ g.canvas, x < g.nextId)
    (hfR : ∀ p ∈ g.registry, p.1 < g.nextId) :
    removeObj (createObject g info).2 (some (createObject g info).1) =
      { g with registry := g.registry ++ [(g.nextId, info)], nextId := g.nextId + 1 } ∧
    observableView (createObject
        { g with registry := g.registry ++ [(g.nextId, info)],
                 nextId := g.nextId + 1 } info).2 =
      observableView (createObject g info).2 := by
  have hniC : g.nextId ∉ g.canvas := fun hmem => absurd (hfC _ hmem) (by omega)
  constructor
  · simp only [createObject, removeObj]
    rw [List.erase_append_right _ hniC, List.erase_cons_head, List.append_nil]
  · unfold observableView createObject getObject
    dsimp only
    congr 1
    rw [List.map_append, List.map_append]
    congr 1
    · apply List.map_congr_left
      intro x hx
      have hx1 : x ≠ g.nextId := fun hc => absurd (hfC x hx) (by omega)
      have hx2 : x ≠ g.nextId + 1 := fun hc => absurd (hfC x hx) (by omega)
      rw [show g.registry ++ [(g.nextId, info)] ++ [(g.nextId + 1, info)] =
        (g.registry ++ [(g.nextId, info)]) ++ [(g.nextId + 1, info)] from rfl]
      rw [find?_key_append_ne _ _ _ _ hx2, find?_key_append_ne _ _ _ _ hx1]
    · simp only [List.map_cons, List.map_nil]
      congr 1
      rw [find?_key_append_self _ _ _
          (fun p hp => by
            rcases List.mem_append.mp hp with h | h
            · exact fun hc => absurd (hfR p h) (by omega)
            · simp at h
              subst h
              simp),
        find?_key_append_self _ _ _ (fun p hp hc => absurd (hfR p hp) (by omega))]
      rfl

/-! ## Branch lemmas for the image loader -/

theorem loaderLoad_reset (g : Graphics) :
    loaderLoad g "" "" = ({ g with bgName := "", bgImage := "" }, .ok none) := by
  simp [loaderLoad]

theorem loaderLoad_reject (g : Graphics) (name : String) (h : name ≠ "") :
    loaderLoad g name "" = (g, .error none) := by
  simp [loaderLoad, h]

theorem loaderLoad_success (g : Graphics) (name img : String) (h : img ≠ "") :
    loaderLoad g name img = ({ g with bgName := name, bgImage := img }, .ok none) := by
  simp [loaderLoad, h]

theorem addIds_canvasClear (g : Graphics) (l : List Nat) :
    addIds (canvasClear g) l = { g with canvas := l } := by
  simp [addIds, canvasClear]

/-! ## Projection lemmas for the invoker primitives -/

theorem clearRedoStack_undoStack (s : InvokerState) :
    (Invoker.clearRedoStack s).undoStack = s.undoStack := by
  unfold Invoker.clearRedoStack Invoker.fireRedoStackChanged
  split <;> rfl

theorem clearRedoStack_isLocked (s : InvokerState) :
    (Invoker.clearRedoStack s).isLocked = s.isLocked := by
  unfold Invoker.clearRedoStack Invoker.fireRedoStackChanged
  split <;> rfl

/-- Shape of a successful `execute()`: the projections of the resulting world
that the round-trip argument needs. -/
theorem execute_ok_parts (w : World) (c : CmdInst) (hl : w.inv.isLocked = false)
    {g1 : Graphics} {ud1 : UndoData} {v1 : Option Nat}
    (hex : cmdExecute c.cmd c.undoData w.graphics = (g1, ud1, .ok v1)) :
    (Invoker.execute w c).1.graphics = g1 ∧
    (Invoker.execute w c).1.inv.undoStack = ⟨c.cmd, ud1⟩ :: w.inv.undoStack ∧
    (Invoker.execute w c).1.inv.redoStack = [] ∧
    (Invoker.execute w c).1.inv.isLocked = false ∧
    (Invoker.execute w c).2 = .ok v1 := by
  have he : Invoker.execute w c =
      ({ inv := Invoker.clearRedoStack
            (Invoker.unlock
              (Invoker.pushUndoStack (Invoker.lock w.inv) ⟨c.cmd, ud1⟩ false)),
         graphics := g1 }, .ok v1) := by
    simp [Invoker.execute, Invoker.invokeExecution, hl, hex]
  rw [he]
  refine ⟨rfl, ?_, clearRedoStack_redoStack _, ?_, rfl⟩
  · rw [clearRedoStack_undoStack]
    rfl
  · rw [clearRedoStack_isLocked]
    rfl

/-- Shape of a successful `undo()`. -/
theorem undo_ok_parts (w : World) (c : CmdInst) (rest : List CmdInst)
    (hs : w.inv.undoStack = c :: rest) (hl : w.inv.isLocked = false)
    {g2 : Graphics} {v2 : Option Nat}
    (hu : cmdUndo c.cmd c.undoData w.graphics = (g2, .ok v2)) :
    (Invoker.undo w).1.graphics = g2 ∧
    (Invoker.undo w).1.inv.undoStack = rest ∧
    (Invoker.undo w).1.inv.redoStack = c :: w.inv.redoStack ∧
    (Invoker.undo w).1.inv.isLocked = false ∧
    (Invoker.undo w).2 = .ok v2 := by
  simp only [Invoker.undo, hs, hl, Bool.false_eq_true, if_false]
  split <;>
    simp [Invoker.invokeUndo, hu, Invoker.lock, Invoker.unlock, Invoker.pushRedoStack,
      Invoker.fireRedoStackChanged, Invoker.fireUndoStackChanged]

/-- Shape of a successful `redo()`. -/
theorem redo_ok_parts (w : World) (c : CmdInst) (rest : List CmdInst)
    (hs : w.inv.redoStack = c :: rest) (hl : w.inv.isLocked = false)
    {g3 : Graphics} {ud3 : UndoData} {v3 : Option Nat}
    (hex : cmdExecute c.cmd c.undoData w.graphics = (g3, ud3, .ok v3)) :
    (Invoker.redo w).1.graphics = g3 ∧
    (Invoker.redo w).2 = .ok v3 := by
  simp only [Invoker.redo, hs, hl, Bool.false_eq_true, if_false]
  split <;>
    simp [Invoker.invokeExecution, hex, Invoker.lock, Invoker.unlock, Invoker.pushUndoStack,
      Invoker.fireRedoStackChanged, Invoker.fireUndoStackChanged]

theorem isEmpty_false_of_ne_nil {l : List Nat} (h : l ≠ []) : l.isEmpty = false := by
  cases l with
  | nil => exact absurd rfl h
  | cons a t => rfl

/-- One command's execute/undo/re-execute cycle at the collaborator level: a
successful forward run can be undone, and re-running the forward action after
the undo reproduces exactly the collaborator state of the first run. -/
theorem cmd_round_trip (c : Cmd) (hc : createsObject c = false) (ud0 : UndoData)
    (g : Graphics) (hnd : g.canvas.Nodup)
    (hbg : g.bgImage = "" → g.bgName = "")
    (ha : jsMod g.angle 360 = g.angle)
    (hang : ∀ p ∈ g.registry, jsMod p.2.angle 360 = p.2.angle)
    (hvalid : ValidArgs c)
    {g1 : Graphics} {ud1 : UndoData} {v1 : Option Nat}
    (hex : cmdExecute c ud0 g = (g1, ud1, .ok v1)) :
    ∃ g2 v2, cmdUndo c ud1 g1 = (g2, .ok v2) ∧
      ∃ g3 ud3 v3, cmdExecute c ud1 g2 = (g3, ud3, .ok v3) ∧ g3 = g1 := by
  cases c with
  | addObject objId =>
    simp only [cmdExecute] at hex
    split at hex
    · simp at hex
    · next hcon =>
      rw [Prod.mk.injEq, Prod.mk.injEq] at hex
      obtain ⟨rfl, rfl, -⟩ := hex
      have hni : objId ∉ g.canvas := by simpa using hcon
      have he : (g.canvas ++ [objId]).erase objId = g.canvas := by
        rw [List.erase_append_right _ hni, List.erase_cons_head, List.append_nil]
      refine ⟨g, some objId, ?_, { g with canvas := g.canvas ++ [objId] }, ud0,
        some objId, ?_, rfl⟩
      · simp only [cmdUndo]
        rw [if_pos (by simp)]
        simp [he]
      · simp only [cmdExecute]
        rw [if_neg hcon]
  | removeObject id =>
    rcases hgo : getObject g id with _ | info
    · have hr : removeObjectById g id = ([], g) := by
        unfold removeObjectById
        rw [hgo]
      simp [cmdExecute, hr] at hex
    · by_cases hgrp : info.typ = "group" ∧ info.members ≠ []
      · have hr : removeObjectById g id =
            (info.members, { g with canvas := eraseEach g.canvas info.members }) := by
          unfold removeObjectById
          rw [hgo]
          simp [hgrp.1, hgrp.2]
        simp only [cmdExecute, hr, isEmpty_false_of_ne_nil hgrp.2, Bool.false_eq_true,
          if_false] at hex
        rw [Prod.mk.injEq, Prod.mk.injEq] at hex
        obtain ⟨rfl, rfl, -⟩ := hex
        have hu : cmdUndo (.removeObject id) { ud0 with objects := info.members }
            { g with canvas := eraseEach g.canvas info.members } =
            ({ g with canvas := eraseEach g.canvas info.members ++ info.members },
              .ok none) := by
          simp [cmdUndo, addIds]
        have hr2 : removeObjectById
            { g with canvas := eraseEach g.canvas info.members ++ info.members } id =
            (info.members, { g with canvas := eraseEach g.canvas info.members }) := by
          unfold removeObjectById
          rw [getObject_update_canvas, hgo]
          simp only [hgrp.1, hgrp.2, ne_eq, not_false_eq_true, and_self, if_true]
          rw [eraseEach_append_self (fun m hm => not_mem_eraseEach_self hnd hm)]
        refine ⟨_, _, hu, { g with canvas := eraseEach g.canvas info.members },
          { ud0 with objects := info.members }, none, ?_, rfl⟩
        simp only [cmdExecute, hr2, isEmpty_false_of_ne_nil hgrp.2, Bool.false_eq_true,
          if_false]
      · by_cases hc : g.canvas.contains id = true
        · have hr : removeObjectById g id =
              ([id], { g with canvas := g.canvas.erase id }) := by
            unfold removeObjectById
            rw [hgo]
            simp only [hgrp, if_false]
            rw [if_pos hc]
          simp only [cmdExecute, hr, List.isEmpty_cons, Bool.false_eq_true, if_false] at hex
          rw [Prod.mk.injEq, Prod.mk.injEq] at hex
          obtain ⟨rfl, rfl, -⟩ := hex
          have hni : id ∉ g.canvas.erase id := fun hm => (hnd.mem_erase_iff.mp hm).1 rfl
          have he : (g.canvas.erase id ++ [id]).erase id = g.canvas.erase id := by
            rw [List.erase_append_right _ hni, List.erase_cons_head, List.append_nil]
          have hu : cmdUndo (.removeObject id) { ud0 with objects := [id] }
              { g with canvas := g.canvas.erase id } =
              ({ g with canvas := g.canvas.erase id ++ [id] }, .ok none) := by
            simp [cmdUndo, addIds]
          have hr2 : removeObjectById { g with canvas := g.canvas.erase id ++ [id] } id =
              ([id], { g with canvas := g.canvas.erase id }) := by
            unfold removeObjectById
            rw [getObject_update_canvas, hgo]
            simp only [hgrp, if_false]
            rw [if_pos (by simp), he]
          refine ⟨_, _, hu, { g with canvas := g.canvas.erase id },
            { ud0 with objects := [id] }, none, ?_, rfl⟩
          simp only [cmdExecute, hr2, List.isEmpty_cons, Bool.false_eq_true, if_false]
        · have hr : removeObjectById g id = ([], g) := by
            unfold removeObjectById
            rw [hgo]
            simp only [hgrp, if_false]
            rw [if_neg hc]
          simp [cmdExecute, hr] at hex
  | clearObjects =>
    simp only [cmdExecute, removeAll] at hex
    rw [Prod.mk.injEq, Prod.mk.injEq] at hex
    obtain ⟨rfl, rfl, -⟩ := hex
    have hu : cmdUndo .clearObjects { ud0 with objects := g.canvas }
        { g with canvas := [] } = ({ g with canvas := [] ++ g.canvas }, .ok none) := by
      simp only [cmdUndo, addIds]
    refine ⟨_, _, hu, { g with canvas := [] }, { ud0 with objects := [] ++ g.canvas },
      none, ?_, rfl⟩
    simp only [cmdExecute, removeAll]
  | changeIconColor id color =>
    simp only [cmdExecute] at hex
    rcases hgo : getObject g id with _ | info
    · simp only [hgo] at hex
      simp at hex
    · simp only [hgo] at hex
      rw [Prod.mk.injEq, Prod.mk.injEq] at hex
      obtain ⟨rfl, rfl, -⟩ := hex
      have hgo2 : getObject (iconSetColor g (some color) (some id)) id =
          some { info with fill := color } := by
        show getObject (setFill g id color) id = some { info with fill := color }
        rw [getObject_setFill, hgo]
        rfl
      refine ⟨iconSetColor g (some color) (some id), none, rfl,
        iconSetColor (iconSetColor g (some color) (some id)) (some color) (some id),
        { ud0 with object := some id, color := some color }, none, ?_, ?_⟩
      · simp only [cmdExecute, hgo2]
      · show setFill (setFill g id color) id color = setFill g id color
        exact setFill_setFill g id color
  | loadImage name url =>
    simp only [cmdExecute] at hex
    by_cases hu2 : url = ""
    · subst hu2
      by_cases hn : name = ""
      · subst hn
        rw [loaderLoad_reset] at hex
        dsimp only at hex
        rw [Prod.mk.injEq, Prod.mk.injEq] at hex
        obtain ⟨rfl, rfl, -⟩ := hex
        by_cases hb : g.bgImage = ""
        · have hbn := hbg hb
          have hu : cmdUndo (.loadImage "" "")
              { ud0 with
                  prevName := g.bgName, prevImage := g.bgImage, prevObjects := g.canvas }
              { g with canvas := [], bgName := "", bgImage := "" } =
              ({ g with bgName := "", bgImage := "" }, .ok none) := by
            simp only [cmdUndo]
            rw [addIds_canvasClear, hbn, hb, loaderLoad_reset]
          have hre : cmdExecute (.loadImage "" "")
              { ud0 with
                  prevName := g.bgName, prevImage := g.bgImage, prevObjects := g.canvas }
              { g with bgName := "", bgImage := "" } =
              ({ g with canvas := [], bgName := "", bgImage := "" },
                { ud0 with prevName := "", prevImage := "", prevObjects := g.canvas },
                .ok none) := by
            simp only [cmdExecute]
            rw [loaderLoad_reset]
            rfl
          exact ⟨_, _, hu, _, _, _, hre, rfl⟩
        · have hu : cmdUndo (.loadImage "" "")
              { ud0 with
                  prevName := g.bgName, prevImage := g.bgImage, prevObjects := g.canvas }
              { g with canvas := [], bgName := "", bgImage := "" } = (g, .ok none) := by
            simp only [cmdUndo]
            rw [addIds_canvasClear, loaderLoad_success _ _ _ hb]
          have hre : cmdExecute (.loadImage "" "")
              { ud0 with
                  prevName := g.bgName, prevImage := g.bgImage, prevObjects := g.canvas }
              g =
              ({ g with canvas := [], bgName := "", bgImage := "" },
                { ud0 with
                    prevName := g.bgName, prevImage := g.bgImage,
                    prevObjects := g.canvas },
                .ok none) := by
            simp only [cmdExecute]
            rw [loaderLoad_reset]
            rfl
          exact ⟨_, _, hu, _, _, _, hre, rfl⟩
      · rw [loaderLoad_reject _ _ hn] at hex
        dsimp only at hex
        simp at hex
    · rw [loaderLoad_success _ _ _ hu2] at hex
      dsimp only at hex
      rw [Prod.mk.injEq, Prod.mk.injEq] at hex
      obtain ⟨rfl, rfl, -⟩ := hex
      by_cases hb : g.bgImage = ""
      · have hbn := hbg hb
        have hu : cmdUndo (.loadImage name url)
            { ud0 with
                prevName := g.bgName, prevImage := g.bgImage, prevObjects := g.canvas }
            { g with canvas := [], bgName := name, bgImage := url } =
            ({ g with bgName := "", bgImage := "" }, .ok none) := by
          simp only [cmdUndo]
          rw [addIds_canvasClear, hbn, hb, loaderLoad_reset]
        have hre : cmdExecute (.loadImage name url)
            { ud0 with
                prevName := g.bgName, prevImage := g.bgImage, prevObjects := g.canvas }
            { g with bgName := "", bgImage := "" } =
            ({ g with canvas := [], bgName := name, bgImage := url },
              { ud0 with prevName := "", prevImage := "", prevObjects := g.canvas },
              .ok none) := by
          simp only [cmdExecute]
          rw [loaderLoad_success _ _ _ hu2]
          rfl
        exact ⟨_, _, hu, _, _, _, hre, rfl⟩
      · have hu : cmdUndo (.loadImage name url)
            { ud0 with
                prevName := g.bgName, prevImage := g.bgImage, prevObjects := g.canvas }
            { g with canvas := [], bgName := name, bgImage := url } = (g, .ok none) := by
          simp only [cmdUndo]
          rw [addIds_canvasClear, loaderLoad_success _ _ _ hb]
        have hre : cmdExecute (.loadImage name url)
            { ud0 with
                prevName := g.bgName, prevImage := g.bgImage, prevObjects := g.canvas }
            g =
            ({ g with canvas := [], bgName := name, bgImage := url },
              { ud0 with
                  prevName := g.bgName, prevImage := g.bgImage, prevObjects := g.canvas },
              .ok none) := by
          simp only [cmdExecute]
          rw [loaderLoad_success _ _ _ hu2]
          rfl
        exact ⟨_, _, hu, _, _, _, hre, rfl⟩
  | flipImage t =>
    simp only [cmdExecute] at hex
    split at hex
    · simp at hex
    · next hne =>
      rw [Prod.mk.injEq, Prod.mk.injEq] at hex
      obtain ⟨rfl, rfl, -⟩ := hex
      have hne' : ¬((flipTarget t (g.flipX, g.flipY)).1,
          (flipTarget t (g.flipX, g.flipY)).2) = (g.flipX, g.flipY) := by
        simpa using hne
      have hu : cmdUndo (.flipImage t) { ud0 with flipStore := some (g.flipX, g.flipY) }
          { g with flipX := (flipTarget t (g.flipX, g.flipY)).1,
                   flipY := (flipTarget t (g.flipX, g.flipY)).2 } = (g, .ok none) := by
        simp only [cmdUndo, Option.getD_some]
        rw [if_neg hne']
      refine ⟨_, _, hu,
        { g with flipX := (flipTarget t (g.flipX, g.flipY)).1,
                 flipY := (flipTarget t (g.flipX, g.flipY)).2 },
        { ud0 with flipStore := some (g.flipX, g.flipY) }, none, ?_, rfl⟩
      simp only [cmdExecute]
      rw [if_neg hne]
  | applyFilter typ mask =>
    simp only [cmdExecute] at hex
    split at hex
    · next hmask =>
      cases mask with
      | none => simp at hex
      | some m =>
        rw [Prod.mk.injEq, Prod.mk.injEq] at hex
        obtain ⟨rfl, rfl, -⟩ := hex
        have hni : m ∉ g.canvas.erase m := fun hm => (hnd.mem_erase_iff.mp hm).1 rfl
        have he : (g.canvas.erase m ++ [m]).erase m = g.canvas.erase m := by
          rw [List.erase_append_right _ hni, List.erase_cons_head, List.append_nil]
        have hu : cmdUndo (.applyFilter typ (some m)) { ud0 with maskStore := some m }
            { g with canvas := g.canvas.erase m, filters := typ :: g.filters } =
            ({ g with canvas := g.canvas.erase m ++ [m] }, .ok none) := by
          simp [cmdUndo, hmask, addIds]
        refine ⟨_, _, hu,
          { g with canvas := g.canvas.erase m, filters := typ :: g.filters },
          { ud0 with maskStore := some m }, none, ?_, rfl⟩
        simp [cmdExecute, hmask, he]
    · next hmask =>
      rw [Prod.mk.injEq, Prod.mk.injEq] at hex
      obtain ⟨rfl, rfl, -⟩ := hex
      have hu : cmdUndo (.applyFilter typ mask) ud0
          { g with filters := typ :: g.filters } = (g, .ok none) := by
        simp [cmdUndo, hmask]
      refine ⟨_, _, hu, { g with filters := typ :: g.filters }, ud0, none, ?_, rfl⟩
      simp only [cmdExecute]
      rw [if_neg hmask]
  | rotateImage t angle =>
    simp only [cmdExecute] at hex
    rw [Prod.mk.injEq, Prod.mk.injEq] at hex
    obtain ⟨rfl, rfl, -⟩ := hex
    refine ⟨_, _, rfl, _, _, _, rfl, ?_⟩
    cases t
    · simp only [Option.getD_some]
      exact setAngleComp_round g angle ha hang
    · simp only [Option.getD_some]
      have hg2a : (setAngleComp (setAngleComp g (g.angle + angle)) g.angle).angle =
          g.angle := by
        rw [setAngleComp_angle, ha]
      rw [hg2a]
      exact setAngleComp_round g (g.angle + angle) ha hang
  | setObjectProperties id props =>
    simp only [cmdExecute] at hex
    rcases hgo : getObject g id with _ | info
    · simp only [hgo] at hex
      simp at hex
    · simp only [hgo] at hex
      rw [Prod.mk.injEq, Prod.mk.injEq] at hex
      obtain ⟨rfl, rfl, -⟩ := hex
      have hkeys : props.map Prod.fst =
          (props.map (fun p => (p.1, getProp info p.1))).map Prod.fst := by
        rw [List.map_map]
        rfl
      obtain ⟨ud3, hre⟩ := setObjectProperties_execute_of_isSome
        (setObjProps (setObjProps g id props) id
          (props.map (fun p => (p.1, getProp info p.1)))) id props
        { ud0 with props := props.map (fun p => (p.1, getProp info p.1)) }
        (by rw [getObject_setObjProps, getObject_setObjProps, hgo]; rfl)
      exact ⟨_, _, rfl, _, ud3, none, hre,
        setObjProps_collapse g id props _ hkeys hvalid⟩
  | changeText id text =>
    simp only [cmdExecute] at hex
    rcases hgo : getObject g id with _ | info
    · simp only [hgo] at hex
      simp at hex
    · simp only [hgo] at hex
      rw [Prod.mk.injEq, Prod.mk.injEq] at hex
      obtain ⟨rfl, rfl, -⟩ := hex
      obtain ⟨ud3, hre⟩ := changeText_execute_of_isSome
        (setText (setText g id text) id info.text) id text
        { ud0 with object := some id, text := info.text }
        (by rw [getObject_setText, getObject_setText, hgo]; rfl)
      exact ⟨_, _, rfl, _, ud3, none, hre, setText_collapse g id text info.text⟩
  | changeTextStyle id styles =>
    simp only [cmdExecute] at hex
    rcases hgo : getObject g id with _ | info
    · simp only [hgo] at hex
      simp at hex
    · simp only [hgo] at hex
      rw [Prod.mk.injEq, Prod.mk.injEq] at hex
      obtain ⟨rfl, rfl, -⟩ := hex
      have hkeys : styles.map Prod.fst =
          (styles.map (fun p => (p.1, getProp info p.1))).map Prod.fst := by
        rw [List.map_map]
        rfl
      obtain ⟨ud3, hre⟩ := changeTextStyle_execute_of_isSome
        (setObjProps (setObjProps g id styles) id
          (styles.map (fun p => (p.1, getProp info p.1)))) id styles
        { ud0 with
            object := some id, styles := styles.map (fun p => (p.1, getProp info p.1)) }
        (by rw [getObject_setObjProps, getObject_setObjProps, hgo]; rfl)
      exact ⟨_, _, rfl, _, ud3, none, hre,
        setObjProps_collapse g id styles _ hkeys hvalid⟩
  | addIcon iconType fill => simp [createsObject] at hc
  | addImageObject url => simp [createsObject] at hc

/-- One creating command's execute/undo/re-execute cycle: undoing removes the
created object, and re-executing creates an identical object under a fresh
stamp id, reproducing the first run's collaborator state up to object
identity (its observable view). -/
theorem cmd_round_trip_create (c : Cmd) (hc : createsObject c = true)
    (ud0 : UndoData) (g : Graphics)
    (hfC : ∀ x ∈ g.canvas, x < g.nextId)
    (hfR : ∀ p ∈ g.registry, p.1 < g.nextId)
    {g1 : Graphics} {ud1 : UndoData} {v1 : Option Nat}
    (hex : cmdExecute c ud0 g = (g1, ud1, .ok v1)) :
    ∃ g2 v2, cmdUndo c ud1 g1 = (g2, .ok v2) ∧
      ∃ g3 ud3 v3, cmdExecute c ud1 g2 = (g3, ud3, .ok v3) ∧
        observableView g3 = observableView g1 := by
  cases c with
  | addIcon iconType fill =>
    simp only [cmdExecute] at hex
    rw [Prod.mk.injEq, Prod.mk.injEq] at hex
    obtain ⟨rfl, rfl, -⟩ := hex
    obtain ⟨h1, h2⟩ := create_remove_create_view g { typ := iconType, fill := fill } hfC hfR
    refine ⟨_, _, rfl, _, _, _, rfl, ?_⟩
    rw [h1]
    exact h2
  | addImageObject url =>
    simp only [cmdExecute] at hex
    rw [Prod.mk.injEq, Prod.mk.injEq] at hex
    obtain ⟨rfl, rfl, -⟩ := hex
    obtain ⟨h1, h2⟩ :=
      create_remove_create_view g { typ := "image", fill := "", src := url } hfC hfR
    refine ⟨_, _, rfl, _, _, _, rfl, ?_⟩
    rw [h1]
    exact h2
  | addObject objId => simp [createsObject] at hc
  | removeObject id => simp [createsObject] at hc
  | clearObjects => simp [createsObject] at hc
  | changeIconColor id color => simp [createsObject] at hc
  | loadImage name url => simp [createsObject] at hc
  | flipImage t => simp [createsObject] at hc
  | applyFilter typ mask => simp [createsObject] at hc
  | rotateImage t angle => simp [createsObject] at hc
  | setObjectProperties id props => simp [createsObject] at hc
  | changeText id text => simp [createsObject] at hc
  | changeTextStyle id styles => simp [createsObject] at hc


theorem clear_stack_behavior_witness :
    (Invoker.clearUndoStack { } = { } ∧
      Invoker.clearUndoStack { undoStack := [cClear], redoStack := [cClear] } =
        { undoStack := [], redoStack := [cClear],
          events := [StackEvent.undoStackChanged 0] }) ∧
    (Invoker.clearRedoStack { } = { } ∧
      Invoker.clearRedoStack { undoStack := [cClear], redoStack := [cClear] } =
        { undoStack := [cClear], redoStack := [],
          events := [StackEvent.redoStackChanged 0] }) :=
  ⟨⟨clear_stack_behavior.1 { } rfl,
      clear_stack_behavior.2.1 { undoStack := [cClear], redoStack := [cClear] } (by simp)⟩,
    ⟨clear_stack_behavior.2.2.1 { } rfl,
      clear_stack_behavior.2.2.2 { undoStack := [cClear], redoStack := [cClear] } (by simp)⟩⟩

/-- C1 counterexample: the round trip does NOT restore the exact collaborator
state for the creating commands.  `addImageObject` on an empty canvas
executes successfully, but after undo the re-executed forward action builds a
fresh fabric object stamped with a new id, so the state after redo differs
from the state after the original execute (the canvas holds id 1 instead of
id 0, and the registry and stamp counter have grown). -/
theorem addImageObject_round_trip_fresh_identity :
    (Invoker.execute { graphics := gEmpty } ⟨.addImageObject "u.png", {}⟩).2.isOk = true ∧
    (Invoker.redo (Invoker.undo
          (Invoker.execute { graphics := gEmpty } ⟨.addImageObject "u.png", {}⟩).1).1).1.graphics ≠
      (Invoker.execute { graphics := gEmpty } ⟨.addImageObject "u.png", {}⟩).1.graphics := by
  decide

/-- C1 (amended): for every embedded command with valid arguments, after a
successful `execute(C)`, an `undo()` followed by a `redo()` restores the
collaborator's observable view (the canvas objects in order with all their
properties, background image, angle, flip settings, filters) to the state
immediately after the original `execute(C)`; for every command except the
object-creating ones (`addIcon`, `addImageObject`) the collaborator state is
restored exactly, while the creating commands rebuild a fresh fabric object
on redo, identical in every observable property but distinct in identity
(its stamp id).  The starting state is assumed consistent: distinct canvas
ids, no background name without an image, reduced angles, and a stamp
counter ahead of every existing id; rotation is embedded at the angle level
(the floating-point left/top repositioning is outside the embedding). -/
theorem execute_undo_redo_round_trip (c : Cmd) (w : World)
    (hl : w.inv.isLocked = false) (hnd : w.graphics.canvas.Nodup)
    (hbg : w.graphics.bgImage = "" → w.graphics.bgName = "")
    (ha : jsMod w.graphics.angle 360 = w.graphics.angle)
    (hang : ∀ p ∈ w.graphics.registry, jsMod p.2.angle 360 = p.2.angle)
    (hfC : ∀ x ∈ w.graphics.canvas, x < w.graphics.nextId)
    (hfR : ∀ p ∈ w.graphics.registry, p.1 < w.graphics.nextId)
    (hvalid : ValidArgs c)
    (hok : (Invoker.execute w ⟨c, {}⟩).2.isOk = true) :
    (createsObject c = false →
      (Invoker.redo (Invoker.undo (Invoker.execute w ⟨c, {}⟩).1).1).1.graphics =
        (Invoker.execute w ⟨c, {}⟩).1.graphics) ∧
    observableView
        (Invoker.redo (Invoker.undo (Invoker.execute w ⟨c, {}⟩).1).1).1.graphics =
      observableView (Invoker.execute w ⟨c, {}⟩).1.graphics := by
  rcases hE : cmdExecute c ({} : UndoData) w.graphics with ⟨g1, ud1, r1⟩
  cases r1 with
  | error m =>
    exfalso
    have hres : (Invoker.execute w ⟨c, {}⟩).2 = .error m := by
      simp [Invoker.execute, Invoker.invokeExecution, hl, hE]
    rw [hres] at hok
    simp [Result.isOk] at hok
  | ok v1 =>
    obtain ⟨hg1, hus, hrs, hlk, -⟩ := execute_ok_parts w ⟨c, {}⟩ hl hE
    cases hcr : createsObject c with
    | false =>
      obtain ⟨g2, v2, hu, g3, ud3, v3, hre, hg3⟩ :=
        cmd_round_trip c hcr {} w.graphics hnd hbg ha hang hvalid hE
      have hu' : cmdUndo (CmdInst.mk c ud1).cmd (CmdInst.mk c ud1).undoData
          (Invoker.execute w ⟨c, {}⟩).1.graphics = (g2, .ok v2) := by
        rw [hg1]
        exact hu
      obtain ⟨hg2, hus2, hrs2, hlk2, -⟩ :=
        undo_ok_parts (Invoker.execute w ⟨c, {}⟩).1 ⟨c, ud1⟩ w.inv.undoStack hus hlk hu'
      have hrs2' : (Invoker.undo (Invoker.execute w ⟨c, {}⟩).1).1.inv.redoStack =
          CmdInst.mk c ud1 :: [] := by
        rw [hrs2, hrs]
      have hre' : cmdExecute (CmdInst.mk c ud1).cmd (CmdInst.mk c ud1).undoData
          (Invoker.undo (Invoker.execute w ⟨c, {}⟩).1).1.graphics = (g3, ud3, .ok v3) := by
        rw [hg2]
        exact hre
      obtain ⟨hg3w, -⟩ := redo_ok_parts (Invoker.undo (Invoker.execute w ⟨c, {}⟩).1).1
        ⟨c, ud1⟩ [] hrs2' hlk2 hre'
      have hfin : (Invoker.redo (Invoker.undo (Invoker.execute w ⟨c, {}⟩).1).1).1.graphics =
          (Invoker.execute w ⟨c, {}⟩).1.graphics := by
        rw [hg3w, hg3, hg1]
      exact ⟨fun _ => hfin, congrArg observableView hfin⟩
    | true =>
      obtain ⟨g2, v2, hu, g3, ud3, v3, hre, hg3⟩ :=
        cmd_round_trip_create c hcr {} w.graphics hfC hfR hE
      have hu' : cmdUndo (CmdInst.mk c ud1).cmd (CmdInst.mk c ud1).undoData
          (Invoker.execute w ⟨c, {}⟩).1.graphics = (g2, .ok v2) := by
        rw [hg1]
        exact hu
      obtain ⟨hg2, hus2, hrs2, hlk2, -⟩ :=
        undo_ok_parts (Invoker.execute w ⟨c, {}⟩).1 ⟨c, ud1⟩ w.inv.undoStack hus hlk hu'
      have hrs2' : (Invoker.undo (Invoker.execute w ⟨c, {}⟩).1).1.inv.redoStack =
          CmdInst.mk c ud1 :: [] := by
        rw [hrs2, hrs]
      have hre' : cmdExecute (CmdInst.mk c ud1).cmd (CmdInst.mk c ud1).undoData
          (Invoker.undo (Invoker.execute w ⟨c, {}⟩).1).1.graphics = (g3, ud3, .ok v3) := by
        rw [hg2]
        exact hre
      obtain ⟨hg3w, -⟩ := redo_ok_parts (Invoker.undo (Invoker.execute w ⟨c, {}⟩).1).1
        ⟨c, ud1⟩ [] hrs2' hlk2 hre'
      refine ⟨fun hco => ?_, ?_⟩
      · exact Bool.noConfusion hco
      · rw [hg3w, hg1]
        exact hg3

theorem execute_undo_redo_round_trip_witness :
    (({ graphics := gNext } : World).inv.isLocked = false) ∧
      gNext.canvas.Nodup ∧
      (gNext.bgImage = "" → gNext.bgName = "") ∧
      jsMod gNext.angle 360 = gNext.angle ∧
      (∀ p ∈ gNext.registry, jsMod p.2.angle 360 = p.2.angle) ∧
      (∀ x ∈ gNext.canvas, x < gNext.nextId) ∧
      (∀ p ∈ gNext.registry, p.1 < gNext.nextId) ∧
      ValidArgs .clearObjects ∧
      ((Invoker.execute { graphics := gNext } ⟨.clearObjects, {}⟩).2.isOk = true) ∧
      ((createsObject Cmd.clearObjects = false →
          (Invoker.redo (Invoker.undo
              (Invoker.execute { graphics := gNext } ⟨.clearObjects, {}⟩).1).1).1.graphics =
            (Invoker.execute { graphics := gNext } ⟨.clearObjects, {}⟩).1.graphics) ∧
        observableView (Invoker.redo (Invoker.undo
            (Invoker.execute { graphics := gNext } ⟨.clearObjects, {}⟩).1).1).1.graphics =
          observableView
            (Invoker.execute { graphics := gNext } ⟨.clearObjects, {}⟩).1.graphics) :=
  ⟨rfl, by decide, by decide, by decide, by decide, by decide, by decide, trivial, by decide,
    execute_undo_redo_round_trip .clearObjects { graphics := gNext } rfl (by decide)
      (by decide) (by decide) (by decide) (by decide) (by decide) trivial (by decide)⟩

/-! ## Claim theorems: command behavior -/

/-- C6 counterexample: the load-image command's forward action clears the
canvas BEFORE handing off to `ImageLoader.load`, which rejects (bare
`reject()`) when the given image is falsy — so a failing forward action can
leave the collaborator mutated: here the canvas lost its object. -/
theorem loadImage_failure_mutates :
    cmdExecute (.loadImage "bg" "") {} gOne =
      ({ gOne with canvas := [] },
        { prevName := "", prevImage := "", prevObjects := [1] }, .error none) ∧
    (cmdExecute (.loadImage "bg" "") {} gOne).1 ≠ gOne := by
  decide

/-- C6 (amended): for every embedded command except load-image, a forward or
inverse action that fails leaves the collaborator state exactly as before —
their existence/absence preconditions are checked before any mutation.  The
load-image command is the exception: its forward action runs
`canvas.clear()` and only then calls `ImageLoader.load`, which rejects on a
falsy image (non-empty name, empty image), so the failure leaves the canvas
cleared (the snapshot for undo was still taken); symmetrically its inverse
rebuilds the canvas from the snapshot before re-loading the previous
background, and rejects after that mutation when the previous image was
falsy with a non-empty previous name. -/
theorem failing_action_mutates_nothing_except_load :
    (∀ (c : Cmd) (ud : UndoData) (g g' : Graphics) (ud' : UndoData) (m : Option String),
      (∀ name url, c ≠ .loadImage name url) →
      cmdExecute c ud g = (g', ud', .error m) → g' = g) ∧
    (∀ (c : Cmd) (ud : UndoData) (g g' : Graphics) (m : Option String),
      (∀ name url, c ≠ .loadImage name url) →
      cmdUndo c ud g = (g', .error m) → g' = g) ∧
    (∀ (name : String) (ud : UndoData) (g : Graphics), name ≠ "" →
      cmdExecute (.loadImage name "") ud g =
        ({ g with canvas := [] },
          { ud with prevName := g.bgName, prevImage := g.bgImage,
                    prevObjects := g.canvas }, .error none)) ∧
    (∀ (name url : String) (ud : UndoData) (g : Graphics),
      ud.prevName ≠ "" → ud.prevImage = "" →
      cmdUndo (.loadImage name url) ud g =
        ({ g with canvas := ud.prevObjects }, .error none)) := by
  refine ⟨?_, ?_, ?_, ?_⟩
  · intro c ud g g' ud' m hni h
    cases c with
    | addObject objId =>
      simp only [cmdExecute] at h
      split at h
      · injection h with h1 _
        exact h1.symm
      · simp at h
    | removeObject id =>
      simp only [cmdExecute] at h
      split at h
      · next he =>
        injection h with h1 _
        exact h1.symm.trans (removeObjectById_empty (List.isEmpty_iff.mp he))
      · simp at h
    | clearObjects => simp [cmdExecute, removeAll] at h
    | changeIconColor id color =>
      simp only [cmdExecute] at h
      rcases hg : getObject g id with _ | info
      · simp only [hg] at h
        injection h with h1 _
        exact h1.symm
      · simp only [hg] at h
        simp at h
    | loadImage name url => exact absurd rfl (hni name url)
    | flipImage t =>
      simp only [cmdExecute] at h
      split at h
      · injection h with h1 _
        exact h1.symm
      · simp at h
    | applyFilter typ mask =>
      simp only [cmdExecute] at h
      split at h
      · cases mask with
        | none =>
          injection h with h1 _
          exact h1.symm
        | some mk => simp at h
      · simp at h
    | rotateImage t angle => simp [cmdExecute] at h
    | setObjectProperties id props =>
      simp only [cmdExecute] at h
      rcases hg : getObject g id with _ | info
      · simp only [hg] at h
        injection h with h1 _
        exact h1.symm
      · simp only [hg] at h
        simp at h
    | changeText id text =>
      simp only [cmdExecute] at h
      rcases hg : getObject g id with _ | info
      · simp only [hg] at h
        injection h with h1 _
        exact h1.symm
      · simp only [hg] at h
        simp at h
    | changeTextStyle id styles =>
      simp only [cmdExecute] at h
      rcases hg : getObject g id with _ | info
      · simp only [hg] at h
        injection h with h1 _
        exact h1.symm
      · simp only [hg] at h
        simp at h
    | addIcon iconType fill => simp [cmdExecute] at h
    | addImageObject url => simp [cmdExecute] at h
  · intro c ud g g' m hni h
    cases c with
    | addObject objId =>
      simp only [cmdUndo] at h
      split at h
      · simp at h
      · injection h with h1 _
        exact h1.symm
    | removeObject id => simp [cmdUndo] at h
    | clearObjects => simp [cmdUndo] at h
    | changeIconColor id color => simp [cmdUndo, iconSetColor] at h
    | loadImage name url => exact absurd rfl (hni name url)
    | flipImage t =>
      simp only [cmdUndo] at h
      split at h
      · injection h with h1 _
        exact h1.symm
      · simp at h
    | applyFilter typ mask => simp [cmdUndo] at h
    | rotateImage t angle => simp [cmdUndo] at h
    | setObjectProperties id props => simp [cmdUndo] at h
    | changeText id text => simp [cmdUndo] at h
    | changeTextStyle id styles => simp [cmdUndo] at h
    | addIcon iconType fill => simp [cmdUndo] at h
    | addImageObject url => simp [cmdUndo] at h
  · intro name ud g hn
    simp only [cmdExecute]
    rw [loaderLoad_reject _ _ hn]
    rfl
  · intro name url ud g hpn hpi
    simp only [cmdUndo]
    rw [addIds_canvasClear, hpi, loaderLoad_reject _ _ hpn]

theorem failing_action_mutates_nothing_except_load_witness :
    ((cmdExecute (Cmd.addObject 1) {} gOne).1 = gOne) ∧
      ((cmdUndo (Cmd.addObject 3) {} gOne).1 = gOne) ∧
      (cmdExecute (.loadImage "bg" "") {} gOne =
        ({ gOne with canvas := [] },
          { prevName := gOne.bgName, prevImage := gOne.bgImage,
            prevObjects := gOne.canvas }, .error none)) ∧
      (cmdUndo (.loadImage "" "") { prevName := "bg", prevImage := "", prevObjects := [5] }
          gEmpty = ({ gEmpty with canvas := [5] }, .error none)) :=
  ⟨failing_action_mutates_nothing_except_load.1 (Cmd.addObject 1) {} gOne
      (cmdExecute (Cmd.addObject 1) {} gOne).1 {} none
      (fun name url h => Cmd.noConfusion h) (by decide),
    failing_action_mutates_nothing_except_load.2.1 (Cmd.addObject 3) {} gOne
      (cmdUndo (Cmd.addObject 3) {} gOne).1 none
      (fun name url h => Cmd.noConfusion h) (by decide),
    failing_action_mutates_nothing_except_load.2.2.1 "bg" {} gOne (by decide),
    failing_action_mutates_nothing_except_load.2.2.2 "" ""
      { prevName := "bg", prevImage := "", prevObjects := [5] } gEmpty (by decide) rfl⟩

/-- C7: a remove-object execution whose target is a non-empty group detaches
each child individually from the canvas and records exactly the list of
leaves (the group is flattened, not preserved); the inverse re-adds exactly
the recorded list as individual objects; and the forward action rejects with
the `NotFound` reason (`rejectMessages.noObject`) exactly when the target
resolves to zero removable objects. -/
theorem removeObject_group_behavior :
    (∀ (g : Graphics) (id : Nat) (info : ObjInfo) (ud : UndoData),
      getObject g id = some info → info.typ = "group" → info.members ≠ [] →
      cmdExecute (.removeObject id) ud g =
        ({ g with canvas := eraseEach g.canvas info.members },
          { ud with objects := info.members }, .ok none)) ∧
    (∀ (g : Graphics) (ud : UndoData) (id : Nat),
      cmdUndo (.removeObject id) ud g =
        ({ g with canvas := g.canvas ++ ud.objects }, .ok none)) ∧
    (∀ (g : Graphics) (id : Nat) (ud : UndoData),
      (removeObjectById g id).1 = [] →
      cmdExecute (.removeObject id) ud g =
        (g, { ud with objects := [] }, .error (some noObjectMsg))) := by
  refine ⟨fun g id info ud hg htyp hne => ?_, fun g ud id => ?_, fun g id ud h => ?_⟩
  · have hr : removeObjectById g id =
        (info.members, { g with canvas := eraseEach g.canvas info.members }) := by
      unfold removeObjectById
      rw [hg]
      simp [htyp, hne]
    simp [cmdExecute, hr, List.isEmpty_iff, hne]
  · simp [cmdUndo, addIds]
  · have h2 := removeObjectById_empty h
    simp [cmdExecute, h, h2, List.isEmpty_iff]

theorem removeObject_group_behavior_witness :
    (getObject gGroup 9 = some { typ := "group", fill := "", members := [1, 2] } ∧
      cmdExecute (.removeObject 9) {} gGroup =
        ({ gGroup with canvas := [7] }, { objects := [1, 2] }, .ok none)) ∧
    (cmdUndo (.removeObject 9) { objects := [1, 2] } { gGroup with canvas := [7] } =
        ({ gGroup with canvas := [7, 1, 2] }, .ok none)) ∧
    ((removeObjectById gEmpty 9).1 = [] ∧
      cmdExecute (.removeObject 9) {} gEmpty =
        (gEmpty, {}, .error (some noObjectMsg))) :=
  ⟨⟨by decide,
      by
        have := removeObject_group_behavior.1 gGroup 9
          { typ := "group", fill := "", members := [1, 2] } {} (by decide) rfl (by decide)
        simpa using this⟩,
    by
      have := removeObject_group_behavior.2.1 { gGroup with canvas := [7] }
        { objects := [1, 2] } 9
      simpa using this,
    ⟨by decide,
      removeObject_group_behavior.2.2 gEmpty 9 {} (by decide)⟩⟩

/-- C8 counterexample: the registered clear-all command (`clearObjects.js`)
does NOT fail when the object list is already empty — on an empty canvas its
forward action resolves, recording an empty snapshot. -/
theorem clearObjects_empty_resolves :
    cmdExecute Cmd.clearObjects {} gEmpty = (gEmpty, {}, .ok none) := by decide

/-- C8 (amended): the registered clear-all command snapshots the full object
list and removes every object — the background image is excluded (untouched)
— and its inverse re-adds the entire snapshot; but it resolves even when the
object list was already empty (recording an empty snapshot).  Only the legacy
factory clear command rejects (bare `reject()`) when the list was empty, and
otherwise behaves the same. -/
theorem clear_all_behavior :
    (∀ (g : Graphics) (ud : UndoData),
      cmdExecute .clearObjects ud g =
        ({ g with canvas := [] }, { ud with objects := g.canvas }, .ok none)) ∧
    (∀ (g : Graphics) (ud : UndoData),
      cmdUndo .clearObjects ud g =
        ({ g with canvas := g.canvas ++ ud.objects }, .ok none)) ∧
    (∀ (g : Graphics) (ud : UndoData), g.canvas = [] →
      legacyClearExecute ud g = (g, { ud with objects := [] }, .error none)) ∧
    (∀ (g : Graphics) (ud : UndoData), g.canvas ≠ [] →
      legacyClearExecute ud g =
        ({ g with canvas := [] }, { ud with objects := g.canvas }, .ok none)) ∧
    (∀ (g : Graphics) (ud : UndoData),
      legacyClearUndo ud g = ({ g with canvas := g.canvas ++ ud.objects }, .ok none)) := by
  refine ⟨fun g ud => ?_, fun g ud => ?_, fun g ud h => ?_, fun g ud h => ?_, fun g ud => ?_⟩
  · simp [cmdExecute, removeAll]
  · simp [cmdUndo, addIds]
  · simp [legacyClearExecute, List.isEmpty_iff, h]
  · simp [legacyClearExecute, List.isEmpty_iff, h, eraseEach_self]
  · simp [legacyClearUndo, addIds]

theorem clear_all_behavior_witness :
    (cmdExecute .clearObjects {} gOne =
        ({ gOne with canvas := [] }, { objects := [1] }, .ok none)) ∧
    (cmdUndo .clearObjects { objects := [1] } { gOne with canvas := [] } =
        ({ gOne with canvas := [1] }, .ok none)) ∧
    (gEmpty.canvas = [] ∧ legacyClearExecute {} gEmpty = (gEmpty, {}, .error none)) ∧
    (gOne.canvas ≠ [] ∧ legacyClearExecute {} gOne =
        ({ gOne with canvas := [] }, { objects := [1] }, .ok none)) :=
  ⟨by have := clear_all_behavior.1 gOne {}; simpa using this,
    by have := clear_all_behavior.2.1 { gOne with canvas := [] } { objects := [1] }
       simpa using this,
    ⟨rfl, by have := clear_all_behavior.2.2.1 gEmpty {} rfl; simpa using this⟩,
    ⟨by simp [gOne], by
      have := clear_all_behavior.2.2.2.1 gOne {} (by simp [gOne])
      simpa using this⟩⟩

end TuiImageEditor
